import Mathlib

/-!
kube-graffiti: namespace selector matching and webhook paths.

A shallow embedding of `pkg/existing/namespace_selector.go`
(`objectsNamespaceMatchesProvidedSelector`, `lookupLabels`,
`convertToMapStringString`, `getStringValue`) and of the rule registration of
`pkg/webhook/server.go` (`pathFromName`, `Server.AddGraffitiRule`).

Decoded documents are dynamic Go values (`interface{}`), modelled by `Value`.
Go maps are association lists in the order their keys are enumerated; a Go map
has unique keys, which is the predicate `Value.KeysNodup`.  The slice of the
`reflect` package the source uses is modelled by `RValue` and `Kind`.
The collaborators (namespace cache, selector primitives) are parameters, and
every call to one of them is recorded in the list of `Event`s the resolver
returns beside its Go result.

Rule names and paths are Go strings as sequences of bytes, since the
percent-encoding works byte by byte.  What the server uses of `net/url` and
`net/http`, and the rule handler of the package, are not among the sources and
are modelled.
-/

namespace KubeGraffiti

/-! ## Dynamic values -/

/-- A decoded dynamic value, what a Go `interface{}` holds: `nil`, a scalar, a
list (`[]interface{}`), a JSON-style map (`map[string]interface{}`) or a
YAML-style map (`map[interface{}]interface{}`).  Map entries are listed in the
order in which the map enumerates its keys. -/
inductive Value where
  | nil : Value
  | bool (b : Bool) : Value
  | num (n : Int) : Value
  | str (s : String) : Value
  | list (xs : List Value) : Value
  | smap (entries : List (String × Value)) : Value
  | amap (entries : List (Value × Value)) : Value

/-- Kinds of `reflect.Kind` that the values above can have. -/
inductive Kind where
  | Invalid
  | Bool
  | Int
  | String
  | Slice
  | Map
  | Interface
  deriving DecidableEq, Repr

/-- A `reflect.Value`.  `ofValue v` is `reflect.ValueOf(v)`, whose kind is the
kind of the concrete value; `ofInterface v` is a key or element of static type
`interface{}` (what `MapKeys` and `MapIndex` hand out for `interface{}` keys and
elements), of kind `Interface`, holding `v`. -/
inductive RValue where
  | ofValue (v : Value) : RValue
  | ofInterface (v : Value) : RValue

/-- The function `reflect.ValueOf`. -/
def reflectValueOf (v : Value) : RValue := RValue.ofValue v

/-- The method `reflect.Value.Kind`. -/
def RValue.Kind : RValue → Kind
  | .ofInterface _ => Kind.Interface
  | .ofValue .nil => Kind.Invalid
  | .ofValue (.bool _) => Kind.Bool
  | .ofValue (.num _) => Kind.Int
  | .ofValue (.str _) => Kind.String
  | .ofValue (.list _) => Kind.Slice
  | .ofValue (.smap _) => Kind.Map
  | .ofValue (.amap _) => Kind.Map

/-- The method `reflect.Value.Interface`: the value held, as an `interface{}`. -/
def RValue.Interface : RValue → Value
  | .ofValue v => v
  | .ofInterface v => v

/-- The method `reflect.Value.String`: the string held by a value of kind
`String`, the only kind on which the source calls it. -/
def RValue.String : RValue → String
  | .ofValue (.str s) => s
  | _ => ""

/-- The keys of `MapKeys()`, each paired with its `MapIndex(k)`, in enumeration
order.  Keys of a `map[string]interface{}` have kind `String`; keys of a
`map[interface{}]interface{}` and all elements have kind `Interface`. -/
def RValue.MapEntries : RValue → List (RValue × RValue)
  | .ofValue (.smap es) => es.map fun kv => (RValue.ofValue (Value.str kv.1), RValue.ofInterface kv.2)
  | .ofValue (.amap es) => es.map fun kv => (RValue.ofInterface kv.1, RValue.ofInterface kv.2)
  | _ => []

/-- Number of `Interface` wrappers around a reflected value (at most one). -/
def RValue.wrappers : RValue → Nat
  | .ofValue _ => 0
  | .ofInterface _ => 1

/-! ## Representation-independent view of a map, used to state properties -/

/-- Whether the dynamic value is a map of either representation. -/
def Value.IsMap : Value → Prop
  | .smap _ => True
  | .amap _ => True
  | _ => False

/-- The key/value pairs of a map of either representation, with the keys as
dynamic values; empty for a value that is not a map. -/
def Value.pairs : Value → List (Value × Value)
  | .smap es => es.map fun kv => (Value.str kv.1, kv.2)
  | .amap es => es
  | _ => []

/-- Well-formedness of a Go map: no key occurs twice. -/
def Value.KeysNodup (v : Value) : Prop := (v.pairs.map Prod.fst).Nodup

/-! ## `map[string]string` -/

/-- A Go `map[string]string`: the nil map, or an allocated map with its
entries. -/
inductive StringMap where
  | nilMap : StringMap
  | alloc (entries : List (String × String)) : StringMap
  deriving DecidableEq, Repr

/-- The entries of a `map[string]string`; the nil map has none. -/
def StringMap.entries : StringMap → List (String × String)
  | .nilMap => []
  | .alloc es => es

/-- The expression `make(map[string]string)`: an allocated, empty map. -/
def StringMap.make : StringMap := StringMap.alloc []

/-- Entry assignment on an association list: replace the value under `k` in
place if the key is present, add the entry at the end otherwise. -/
def assign : List (String × String) → String → String → List (String × String)
  | [], k, v => [(k, v)]
  | (k', v') :: rest, k, v => if k' = k then (k, v) :: rest else (k', v') :: assign rest k v

/-- The statement `labels[ks] = vs`.  The source only assigns into the map it
has allocated with `make`; an assignment into the nil map (a run-time failure in
Go) is never reached and is left as the nil map here. -/
def StringMap.set : StringMap → String → String → StringMap
  | .nilMap, _, _ => StringMap.nilMap
  | .alloc es, k, v => StringMap.alloc (assign es k v)

/-- The builtin `len` on a map. -/
def StringMap.len (m : StringMap) : Nat := m.entries.length

/-! ## Label extraction -/

/-- The function `getStringValue`: looks at a reflected value for a string,
unwrapping an interface. -/
def getStringValue (object : RValue) : String × Bool :=
  match h : object.Kind with
  | Kind.Interface => getStringValue (reflectValueOf object.Interface)
  | Kind.String => (object.String, true)
  | _ => ("", false)
termination_by object.wrappers
decreasing_by
  cases object with
  | ofValue v => cases v <;> simp [RValue.Kind] at h
  | ofInterface v => simp [reflectValueOf, RValue.wrappers]

/-- The loop of `convertToMapStringString` over the keys of a map: an entry
whose key and value are both strings is assigned into `labels`. -/
def convertLoop : List (RValue × RValue) → StringMap → StringMap
  | [], labels => labels
  | (k, v) :: rest, labels =>
    match getStringValue k with
    | (ks, true) =>
      match getStringValue v with
      | (vs, true) => convertLoop rest (labels.set ks vs)
      | (_, false) => convertLoop rest labels
    | (_, false) => convertLoop rest labels

/-- The function `convertToMapStringString`: the string-to-string entries of a
reflected map; everything else is ignored. -/
def convertToMapStringString (obj : RValue) : StringMap :=
  match h : obj.Kind with
  | Kind.Interface => convertToMapStringString (reflectValueOf obj.Interface)
  | Kind.Map => convertLoop obj.MapEntries StringMap.make
  | _ => StringMap.make
termination_by obj.wrappers
decreasing_by
  cases obj with
  | ofValue v => cases v <;> simp [RValue.Kind] at h
  | ofInterface v => simp [reflectValueOf, RValue.wrappers]

/-- The loop of `lookupLabels` over the keys of a map: the first key whose
string value is "labels" ends the loop with the conversion of its element. -/
def lookupLoop : List (RValue × RValue) → Option StringMap
  | [] => none
  | (k, v) :: rest =>
    if (getStringValue k).1 = "labels" then some (convertToMapStringString v)
    else lookupLoop rest

/-- The function `lookupLabels`: accepts any value but wants a map; scans for a
string key "labels" and returns its value as a `map[string]string`. -/
def lookupLabels (obj : Value) : StringMap :=
  if (reflectValueOf obj).Kind = Kind.Map then
    match lookupLoop (reflectValueOf obj).MapEntries with
    | some labels => labels
    | none => StringMap.make
  else StringMap.make

/-! ## The resolver and its collaborators -/

/-- A Go `error` value, carrying its message. -/
structure GoError where
  message : String
  deriving DecidableEq, Repr

/-- The function `errors.New`. -/
def errorsNew (text : String) : GoError := ⟨text⟩

/-- A namespace as the cache returns it; only its labels are read. -/
structure Namespace where
  Labels : StringMap
  deriving DecidableEq, Repr

/-- The collaborator `namespaceCache`: `LookupNamespace(name)` returns a
namespace and an error (nil when the lookup succeeded). -/
structure namespaceCache where
  LookupNamespace : String → Namespace × Option GoError

/-- The selector primitives of package `graffiti`: `ValidateLabelSelector`
returns an error (nil for a valid selector) and `MatchLabelSelector` returns
the match result with an error. -/
structure SelectorPrimitives where
  ValidateLabelSelector : String → Option GoError
  MatchLabelSelector : String → StringMap → Bool × Option GoError

/-- A call made to a collaborator, with its arguments. -/
inductive Event where
  | LookupNamespace (name : String) : Event
  | ValidateLabelSelector (selector : String) : Event
  | MatchLabelSelector (selector : String) (labels : StringMap) : Event
  deriving DecidableEq, Repr

/-- What one call of the resolver does: the `(bool, error)` pair it returns and
the collaborator calls it made, in order. -/
structure Outcome where
  result : Bool × Option GoError
  calls : List Event
  deriving DecidableEq, Repr

/-- The index expression `m[key]` on a `map[string]interface{}`: the nil
interface when the key is absent. -/
def index (m : List (String × Value)) (key : String) : Value :=
  match m.lookup key with
  | some v => v
  | none => Value.nil

/-- The type assertion `x.(map[string]interface{})` in its comma-ok form. -/
def assertStringMap : Value → Option (List (String × Value))
  | .smap es => some es
  | _ => none

/-- The type assertion `x.(string)` in its comma-ok form: the zero value and
`false` when `x` does not hold a string. -/
def assertString : Value → String × Bool
  | .str s => (s, true)
  | _ => ("", false)

/-- The builtin `len` on a string: its length in bytes. -/
def len (s : String) : Nat := s.utf8ByteSize

/-- The last statements of `objectsNamespaceMatchesProvidedSelector`, reached
with the resolved `labels` after the calls `before`: validate the selector,
then match it against the labels. -/
def validateThenMatch (graffiti : SelectorPrimitives) (selector : String)
    (labels : StringMap) (before : List Event) : Outcome :=
  match graffiti.ValidateLabelSelector selector with
  | some _ =>
    ⟨(false, some (errorsNew "invalid label selector")),
      before ++ [Event.ValidateLabelSelector selector]⟩
  | none =>
    ⟨graffiti.MatchLabelSelector selector labels,
      before ++ [Event.ValidateLabelSelector selector,
        Event.MatchLabelSelector selector labels]⟩

/-- The function `objectsNamespaceMatchesProvidedSelector`: decides whether the
object (a namespace) or the object's namespace matches the selector. -/
def objectsNamespaceMatchesProvidedSelector (graffiti : SelectorPrimitives)
    (obj : List (String × Value)) (selector : String) (nsc : namespaceCache) : Outcome :=
  match assertStringMap (index obj "metadata") with
  | none => ⟨(false, some (errorsNew "the object is missing metadata")), []⟩
  | some meta =>
    let name := (assertString (index meta "namespace")).1
    match assertString (index obj "kind") with
    | (_, false) => ⟨(false, some (errorsNew "this object seems to have no kind")), []⟩
    | (kind, true) =>
      if len name = 0 ∧ kind ≠ "Namespace" then ⟨(false, none), []⟩
      else if kind = "Namespace" then
        validateThenMatch graffiti selector (lookupLabels (Value.smap meta)) []
      else
        match nsc.LookupNamespace name with
        | (_, some err) => ⟨(false, some err), [Event.LookupNamespace name]⟩
        | (ns, none) =>
          validateThenMatch graffiti selector ns.Labels [Event.LookupNamespace name]

/-- The calls to the cache among a list of collaborator calls. -/
def cacheCalls : List Event → List String
  | [] => []
  | Event.LookupNamespace n :: rest => n :: cacheCalls rest
  | _ :: rest => cacheCalls rest

/-! ## Definitions used to state the properties of label extraction -/

/-- The entry that one iteration of the loop of `convertToMapStringString`
assigns for the key `k` with element `v`, if it assigns one. -/
def labelOf (kv : RValue × RValue) : Option (String × String) :=
  match getStringValue kv.1, getStringValue kv.2 with
  | (ks, true), (vs, true) => some (ks, vs)
  | _, _ => none

/-- The label that a key/value pair of dynamic values stands for, when both
hold strings. -/
def stringPair (p : Value × Value) : Option (String × String) :=
  match p.1, p.2 with
  | Value.str k, Value.str s => some (k, s)
  | _, _ => none

/-- JSON-style encoding of a mapping with string keys: a
`map[string]interface{}`. -/
def encodeJSON (es : List (String × Value)) : Value := Value.smap es

/-- YAML-style encoding of a mapping with string keys: a
`map[interface{}]interface{}` whose keys hold the strings. -/
def encodeYAML (es : List (String × Value)) : Value :=
  Value.amap (es.map fun kv => (Value.str kv.1, kv.2))

/-- Either encoding of a mapping with string keys: YAML-style when `yaml` is
set, JSON-style otherwise. -/
def encodeMap (yaml : Bool) (es : List (String × Value)) : Value :=
  if yaml then encodeYAML es else encodeJSON es

/-- Label pairs as the entries of a decoded labels map. -/
def labelEntries (ls : List (String × String)) : List (String × Value) :=
  ls.map fun kv => (kv.1, Value.str kv.2)

/-! ## Sample collaborators, for instantiating the theorems -/

/-- Sample selector primitives: the selectors "env=prod" and "!env" are valid
and decided on the entries of the label set; every other selector is invalid. -/
def samplePrimitives : SelectorPrimitives where
  ValidateLabelSelector s :=
    if s = "env=prod" ∨ s = "!env" then none else some (errorsNew "unable to parse selector")
  MatchLabelSelector s labels :=
    if s = "env=prod" then (decide (("env", "prod") ∈ labels.entries), none)
    else if s = "!env" then (decide (∀ kv ∈ labels.entries, kv.1 ≠ "env"), none)
    else (false, some (errorsNew "unable to parse selector"))

/-- Sample cache in which every lookup fails. -/
def emptyCache : namespaceCache where
  LookupNamespace _ := (⟨StringMap.nilMap⟩, some (errorsNew "namespace not found"))

/-- Sample cache holding one namespace with the given labels. -/
def singleCache (name : String) (labels : StringMap) : namespaceCache where
  LookupNamespace n :=
    if n = name then (⟨labels⟩, none)
    else (⟨StringMap.nilMap⟩, some (errorsNew "namespace not found"))

/-! ## Label extraction with the run-time failures of `reflect` made explicit -/

/-- How a run of the label extraction can end without a value: a Go run-time
panic, or more nested calls than the run was allowed. -/
inductive Failure where
  | panicked (message : String) : Failure
  | outOfFuel : Failure
  deriving DecidableEq, Repr

/-- The methods `MapKeys` and `MapIndex` together: they panic on a value whose
kind is not `Map`. -/
def RValue.MapEntriesChecked (r : RValue) : Except Failure (List (RValue × RValue)) :=
  if r.Kind = Kind.Map then Except.ok r.MapEntries
  else Except.error (Failure.panicked "reflect: call of reflect.Value.MapKeys on non-map Value")

/-- The method `reflect.Value.Interface`: it panics on the zero Value, the one
of kind `Invalid`. -/
def RValue.InterfaceChecked (r : RValue) : Except Failure Value :=
  if r.Kind = Kind.Invalid then
    Except.error (Failure.panicked "reflect: call of reflect.Value.Interface on zero Value")
  else Except.ok r.Interface

/-- The statement `labels[ks] = vs`: it panics on the nil map. -/
def StringMap.setChecked : StringMap → String → String → Except Failure StringMap
  | .nilMap, _, _ => Except.error (Failure.panicked "assignment to entry in nil map")
  | .alloc es, k, v => Except.ok (StringMap.alloc (assign es k v))

/-- The function `getStringValue` with its failures: `fuel` bounds the number
of nested calls, this one included. -/
def getStringValueChecked : Nat → RValue → Except Failure (String × Bool)
  | 0, _ => Except.error Failure.outOfFuel
  | fuel + 1, object =>
    match object.Kind with
    | Kind.Interface =>
      match object.InterfaceChecked with
      | Except.ok held => getStringValueChecked fuel (reflectValueOf held)
      | Except.error e => Except.error e
    | Kind.String => Except.ok (object.String, true)
    | _ => Except.ok ("", false)

/-- The loop of `convertToMapStringString` with its failures; each
`getStringValue` it starts may nest `fuel` calls. -/
def convertLoopChecked (fuel : Nat) :
    List (RValue × RValue) → StringMap → Except Failure StringMap
  | [], labels => Except.ok labels
  | (k, v) :: rest, labels =>
    match getStringValueChecked fuel k with
    | Except.error e => Except.error e
    | Except.ok (ks, true) =>
      match getStringValueChecked fuel v with
      | Except.error e => Except.error e
      | Except.ok (vs, true) =>
        match labels.setChecked ks vs with
        | Except.error e => Except.error e
        | Except.ok labels2 => convertLoopChecked fuel rest labels2
      | Except.ok (_, false) => convertLoopChecked fuel rest labels
    | Except.ok (_, false) => convertLoopChecked fuel rest labels

/-- The function `convertToMapStringString` with its failures: `fuel` bounds
the number of its nested calls, this one included, and `limit` bounds the
nested calls of each `getStringValue` it starts. -/
def convertToMapStringStringChecked (limit : Nat) : Nat → RValue → Except Failure StringMap
  | 0, _ => Except.error Failure.outOfFuel
  | fuel + 1, obj =>
    match obj.Kind with
    | Kind.Interface =>
      match obj.InterfaceChecked with
      | Except.ok held => convertToMapStringStringChecked limit fuel (reflectValueOf held)
      | Except.error e => Except.error e
    | Kind.Map =>
      match obj.MapEntriesChecked with
      | Except.ok entries => convertLoopChecked limit entries StringMap.make
      | Except.error e => Except.error e
    | _ => Except.ok StringMap.make

/-- The loop of `lookupLabels` with its failures; each `getStringValue` and
`convertToMapStringString` it starts may nest `fuel` calls. -/
def lookupLoopChecked (fuel : Nat) :
    List (RValue × RValue) → Except Failure (Option StringMap)
  | [] => Except.ok none
  | (k, v) :: rest =>
    match getStringValueChecked fuel k with
    | Except.error e => Except.error e
    | Except.ok (ks, _) =>
      if ks = "labels" then
        match convertToMapStringStringChecked fuel fuel v with
        | Except.error e => Except.error e
        | Except.ok labels => Except.ok (some labels)
      else lookupLoopChecked fuel rest

/-- The function `lookupLabels` with its failures; each `getStringValue` and
`convertToMapStringString` it starts may nest `fuel` calls. -/
def lookupLabelsChecked (fuel : Nat) (obj : Value) : Except Failure StringMap :=
  if (reflectValueOf obj).Kind = Kind.Map then
    match (reflectValueOf obj).MapEntriesChecked with
    | Except.error e => Except.error e
    | Except.ok entries =>
      match lookupLoopChecked fuel entries with
      | Except.error e => Except.error e
      | Except.ok (some labels) => Except.ok labels
      | Except.ok none => Except.ok StringMap.make
  else Except.ok StringMap.make

/-! ## The webhook server (`pkg/webhook/server.go`) -/

/-- A byte of a Go string. -/
abbrev Byte := Fin 256

/-- A Go `string` as `net/url` and `net/http` see it: a sequence of bytes. -/
abbrev GoString := List Byte

/-- The Go string written by a string literal: its UTF-8 encoding. -/
def utf8 (s : String) : GoString :=
  s.data.flatMap fun c =>
    (String.utf8EncodeChar c).map fun b => ⟨b.toNat % 256, Nat.mod_lt _ (by decide)⟩

/-- The text of a Go string, one character per byte (its reading as ASCII). -/
def text (s : GoString) : String := String.mk (s.map fun b => Char.ofNat b.val)

/-- Modelled from the spec: `net/url` of Go's standard library is not among the
sources; the spec has the rule name percent-encoded as a URL path segment.
This is `shouldEscape(c, encodePathSegment)` of `net/url`: letters, digits and
the marks `-_.~` are kept, the reserved characters `$&+:=@` are kept, the
reserved characters `/;,?` and every other byte are escaped. -/
def shouldEscape (c : Byte) : Bool :=
  if ('a'.toNat ≤ c.val ∧ c.val ≤ 'z'.toNat) ∨ ('A'.toNat ≤ c.val ∧ c.val ≤ 'Z'.toNat)
      ∨ ('0'.toNat ≤ c.val ∧ c.val ≤ '9'.toNat) then false
  else if c.val = '-'.toNat ∨ c.val = '_'.toNat ∨ c.val = '.'.toNat ∨ c.val = '~'.toNat then
    false
  else if c.val = '$'.toNat ∨ c.val = '&'.toNat ∨ c.val = '+'.toNat ∨ c.val = ','.toNat
      ∨ c.val = '/'.toNat ∨ c.val = ':'.toNat ∨ c.val = ';'.toNat ∨ c.val = '='.toNat
      ∨ c.val = '?'.toNat ∨ c.val = '@'.toNat then
    decide (c.val = '/'.toNat ∨ c.val = ';'.toNat ∨ c.val = ','.toNat ∨ c.val = '?'.toNat)
  else true

/-- Modelled from the spec: the constant `upperhex` of `net/url` (not among the
sources), the digits of the percent-encoding. -/
def upperhex : GoString := utf8 "0123456789ABCDEF"

/-- Modelled from the spec: one step of the loop of `escape` in `net/url` (not
among the sources): a byte to escape becomes `%` and its two upper-case
hexadecimal digits `upperhex[c>>4]`, `upperhex[c&15]`; any other byte is
copied. -/
def escapeByte (c : Byte) : GoString :=
  if shouldEscape c then [37, upperhex.getD (c.val / 16) 0, upperhex.getD (c.val % 16) 0]
  else [c]

/-- Modelled from the spec: `escape(s, encodePathSegment)` of `net/url` (not
among the sources), byte by byte. -/
def escape : GoString → GoString
  | [] => []
  | c :: rest => escapeByte c ++ escape rest

/-- Modelled from the spec: `url.PathEscape` of Go's standard library (not
among the sources), the percent-encoding of a string as a URL path segment. -/
def PathEscape (s : GoString) : GoString := escape s

/-- The constant `pathPrefix`. -/
def pathPrefix : GoString := utf8 "/graffiti/"

/-- The function `pathFromName`. -/
def pathFromName (name : GoString) : GoString := pathPrefix ++ PathEscape name

/-- Modelled from the spec: `graffiti.Rule` is not among the sources; a rule
exposes its `Name` and the selector string. -/
structure Rule where
  Name : GoString
  Selector : String
  deriving DecidableEq, Repr

/-- Modelled from the spec: `http.ServeMux` of Go's standard library is not
among the sources; the spec has an HTTP route registered per path.  The mux is
the list of the patterns registered, each with the shared handler. -/
structure ServeMux where
  patterns : List GoString
  deriving DecidableEq, Repr

/-- Modelled from the spec: the method `Handle` of `http.ServeMux` (not among
the sources) registers the handler for the pattern; as the standard library
documents, it panics if the pattern is empty or a handler is already registered
for it. -/
def ServeMux.Handle (mux : ServeMux) (pattern : GoString) : Except Failure ServeMux :=
  if pattern = [] then Except.error (Failure.panicked "http: invalid pattern")
  else if pattern ∈ mux.patterns then
    Except.error (Failure.panicked ("http: multiple registrations for " ++ text pattern))
  else Except.ok ⟨mux.patterns ++ [pattern]⟩

/-- Modelled from the spec: `graffitiHandler` is not among the sources; it is
the shared dispatch handler with its rule-lookup table keyed by path. -/
structure graffitiHandler where
  rules : List (GoString × Rule)
  deriving DecidableEq, Repr

/-- Modelled from the spec: `newGraffitiHandler` is not among the sources; the
initial handler has an empty rule table. -/
def newGraffitiHandler : graffitiHandler := ⟨[]⟩

/-- Assignment `table[path] = rule` on the rule table: the last write wins. -/
def assignRule : List (GoString × Rule) → GoString → Rule → List (GoString × Rule)
  | [], path, rule => [(path, rule)]
  | (p, r) :: rest, path, rule =>
    if p = path then (path, rule) :: rest else (p, r) :: assignRule rest path rule

/-- Modelled from the spec: the method `addRule` of `graffitiHandler` (not
among the sources) records the rule in the rule-lookup table keyed by path; the
last write wins. -/
def graffitiHandler.addRule (h : graffitiHandler) (path : GoString) (rule : Rule) :
    graffitiHandler := ⟨assignRule h.rules path rule⟩

/-- The rule the handler has recorded for a path. -/
def graffitiHandler.ruleFor (h : graffitiHandler) (path : GoString) : Option Rule :=
  h.rules.lookup path

/-- The struct `Server`: its configuration, the address and the mux of its
`httpServer`, and the shared handler. -/
structure Server where
  CompanyDomain : String
  Namespace : String
  Service : String
  CACert : GoString
  Addr : String
  mux : ServeMux
  handler : graffitiHandler
  deriving DecidableEq, Repr

/-- The function `NewServer`, once the TLS configuration has been read from the
cluster: a new mux without routes and a new handler. -/
def NewServer (cd ns svc : String) (ca : GoString) (port : Nat) : Server :=
  { CompanyDomain := cd, Namespace := ns, Service := svc, CACert := ca,
    Addr := ":" ++ toString port, mux := ⟨[]⟩, handler := newGraffitiHandler }

/-- What a call of `AddGraffitiRule` leaves: the server, and the panic that
ended the call if there was one. -/
structure Registration where
  server : Server
  failure : Option Failure
  deriving DecidableEq, Repr

/-- The method `AddGraffitiRule`: the path of the rule is registered with the
mux, then the rule is recorded with the handler.  A panic of `mux.Handle` ends
the call before `addRule`. -/
def Server.AddGraffitiRule (s : Server) (rule : Rule) : Registration :=
  let path := pathFromName rule.Name
  match s.mux.Handle path with
  | Except.error e => ⟨s, some e⟩
  | Except.ok mux => ⟨{ s with mux := mux, handler := s.handler.addRule path rule }, none⟩

/-! ## Characters of a URL path segment, used to state the properties of paths -/

/-- The unreserved characters of a URL: letters, digits and the marks `-._~`. -/
def isUnreserved (c : Byte) : Bool :=
  decide (('a'.toNat ≤ c.val ∧ c.val ≤ 'z'.toNat) ∨ ('A'.toNat ≤ c.val ∧ c.val ≤ 'Z'.toNat)
    ∨ ('0'.toNat ≤ c.val ∧ c.val ≤ '9'.toNat)
    ∨ c.val = '-'.toNat ∨ c.val = '.'.toNat ∨ c.val = '_'.toNat ∨ c.val = '~'.toNat)

/-- The upper-case hexadecimal digits. -/
def isUpperHex (c : Byte) : Bool :=
  decide (('0'.toNat ≤ c.val ∧ c.val ≤ '9'.toNat) ∨ ('A'.toNat ≤ c.val ∧ c.val ≤ 'F'.toNat))

/-- The characters that may stand in a URL path segment: the unreserved
characters, the percent sign of an escape, the sub-delimiters `!$&'()*+,;=`,
the colon and the at sign. -/
def isPathSegmentChar (c : Byte) : Bool :=
  isUnreserved c || decide (c.val = '%'.toNat ∨ c.val = '!'.toNat ∨ c.val = '$'.toNat
    ∨ c.val = '&'.toNat ∨ c.val = '\''.toNat ∨ c.val = '('.toNat ∨ c.val = ')'.toNat
    ∨ c.val = '*'.toNat ∨ c.val = '+'.toNat ∨ c.val = ','.toNat ∨ c.val = ';'.toNat
    ∨ c.val = '='.toNat ∨ c.val = ':'.toNat ∨ c.val = '@'.toNat)

/-! ## Basic facts -/

theorem len_eq_zero_iff (s : String) : len s = 0 ↔ s = "" := by
  cases s with
  | mk cs =>
    cases cs with
    | nil => simp [len, String.utf8ByteSize, String.utf8ByteSize.go]
    | cons c cs =>
      have hc := Char.utf8Size_pos c
      simp only [len, String.utf8ByteSize, String.utf8ByteSize.go]
      constructor
      · intro h; omega
      · intro h
        have := congrArg String.data h
        simp at this

/-! ## Properties of the resolver -/

/-- C1: for a document whose metadata is a string-keyed mapping and whose kind
is "Namespace", and a selector the validation primitive accepts, the resolver
returns what the match primitive returns for the selector and the labels that
`lookupLabels` extracts from the document's own metadata; it makes no call to
the cache, and its outcome is the same with any other cache. -/
theorem namespace_document_matches_on_own_labels (graffiti : SelectorPrimitives)
    (obj meta : List (String × Value)) (selector : String) (nsc nsc2 : namespaceCache)
    (hmeta : index obj "metadata" = Value.smap meta)
    (hkind : index obj "kind" = Value.str "Namespace")
    (hvalid : graffiti.ValidateLabelSelector selector = none) :
    (objectsNamespaceMatchesProvidedSelector graffiti obj selector nsc).result
        = graffiti.MatchLabelSelector selector (lookupLabels (Value.smap meta))
      ∧ cacheCalls (objectsNamespaceMatchesProvidedSelector graffiti obj selector nsc).calls = []
      ∧ objectsNamespaceMatchesProvidedSelector graffiti obj selector nsc2
        = objectsNamespaceMatchesProvidedSelector graffiti obj selector nsc := by
  simp [objectsNamespaceMatchesProvidedSelector, hmeta, hkind, assertStringMap, assertString,
    validateThenMatch, hvalid, cacheCalls]

/-- C2: for a document with mapping metadata and a string kind other than
"Namespace" whose `metadata.namespace` is absent or the empty string, the
resolver returns `(false, nil)` for every selector and every cache, and calls
no collaborator (neither the cache nor the validation primitive). -/
theorem cluster_scoped_object_never_matches (graffiti : SelectorPrimitives)
    (obj meta : List (String × Value)) (kind selector : String) (nsc : namespaceCache)
    (hmeta : index obj "metadata" = Value.smap meta)
    (hkind : index obj "kind" = Value.str kind)
    (hother : kind ≠ "Namespace")
    (hns : meta.lookup "namespace" = none ∨ meta.lookup "namespace" = some (Value.str "")) :
    objectsNamespaceMatchesProvidedSelector graffiti obj selector nsc
      = ⟨(false, none), []⟩ := by
  have hlen : len "" = 0 := (len_eq_zero_iff "").2 rfl
  rcases hns with h | h
  · have hidx : index meta "namespace" = Value.nil := by simp [index, h]
    simp [objectsNamespaceMatchesProvidedSelector, hmeta, hkind, hidx, assertStringMap,
      assertString, hlen, hother]
  · have hidx : index meta "namespace" = Value.str "" := by simp [index, h]
    simp [objectsNamespaceMatchesProvidedSelector, hmeta, hkind, hidx, assertStringMap,
      assertString, hlen, hother]

/-- C3: for a document with mapping metadata, a string kind other than
"Namespace" and a non-empty `metadata.namespace` n, the resolver calls
`LookupNamespace` exactly once, with n; and if that lookup returns the error e,
the result is `(false, e)`, whatever the selector. -/
theorem namespaced_object_consults_cache_once (graffiti : SelectorPrimitives)
    (obj meta : List (String × Value)) (kind n selector : String) (nsc : namespaceCache)
    (hmeta : index obj "metadata" = Value.smap meta)
    (hkind : index obj "kind" = Value.str kind)
    (hother : kind ≠ "Namespace")
    (hns : meta.lookup "namespace" = some (Value.str n))
    (hne : n ≠ "") :
    cacheCalls (objectsNamespaceMatchesProvidedSelector graffiti obj selector nsc).calls = [n]
      ∧ ∀ ns e, nsc.LookupNamespace n = (ns, some e) →
          (objectsNamespaceMatchesProvidedSelector graffiti obj selector nsc).result
            = (false, some e) := by
  have hidx : index meta "namespace" = Value.str n := by simp [index, hns]
  have hlen : len n ≠ 0 := fun h => hne ((len_eq_zero_iff n).1 h)
  constructor
  · rcases hlk : nsc.LookupNamespace n with ⟨ns, _ | e⟩
    · cases hv : graffiti.ValidateLabelSelector selector <;>
        simp [objectsNamespaceMatchesProvidedSelector, hmeta, hkind, hidx, assertStringMap,
          assertString, hlen, hother, hlk, validateThenMatch, hv, cacheCalls]
    · simp [objectsNamespaceMatchesProvidedSelector, hmeta, hkind, hidx, assertStringMap,
        assertString, hlen, hother, hlk, cacheCalls]
  · intro ns e hlk
    simp [objectsNamespaceMatchesProvidedSelector, hmeta, hkind, hidx, assertStringMap,
      assertString, hlen, hother, hlk]

/-- C4: for a document with mapping metadata, a string kind other than
"Namespace" and a non-empty `metadata.namespace` n that the cache resolves to a
namespace with labels L, and a selector the validation primitive accepts, the
resolver returns the pair the match primitive returns for the selector and L. -/
theorem namespaced_object_matches_on_cached_labels (graffiti : SelectorPrimitives)
    (obj meta : List (String × Value)) (kind n selector : String) (nsc : namespaceCache)
    (L : StringMap)
    (hmeta : index obj "metadata" = Value.smap meta)
    (hkind : index obj "kind" = Value.str kind)
    (hother : kind ≠ "Namespace")
    (hns : meta.lookup "namespace" = some (Value.str n))
    (hne : n ≠ "")
    (hfound : nsc.LookupNamespace n = (⟨L⟩, none))
    (hvalid : graffiti.ValidateLabelSelector selector = none) :
    (objectsNamespaceMatchesProvidedSelector graffiti obj selector nsc).result
      = graffiti.MatchLabelSelector selector L := by
  have hidx : index meta "namespace" = Value.str n := by simp [index, hns]
  have hlen : len n ≠ 0 := fun h => hne ((len_eq_zero_iff n).1 h)
  simp [objectsNamespaceMatchesProvidedSelector, hmeta, hkind, hidx, assertStringMap,
    assertString, hlen, hother, hfound, validateThenMatch, hvalid]

/-- Instance of C1: a namespace document labelled env=prod, the selector
"env=prod", and two different caches. -/
theorem namespace_document_matches_on_own_labels_witness :
    index [("kind", Value.str "Namespace"),
        ("metadata", Value.smap [("name", Value.str "shop"),
          ("labels", Value.smap [("env", Value.str "prod")])])] "metadata"
      = Value.smap [("name", Value.str "shop"),
          ("labels", Value.smap [("env", Value.str "prod")])]
    ∧ samplePrimitives.ValidateLabelSelector "env=prod" = none
    ∧ (objectsNamespaceMatchesProvidedSelector samplePrimitives
        [("kind", Value.str "Namespace"),
          ("metadata", Value.smap [("name", Value.str "shop"),
            ("labels", Value.smap [("env", Value.str "prod")])])]
        "env=prod" emptyCache).result
      = samplePrimitives.MatchLabelSelector "env=prod"
          (lookupLabels (Value.smap [("name", Value.str "shop"),
            ("labels", Value.smap [("env", Value.str "prod")])]))
    ∧ objectsNamespaceMatchesProvidedSelector samplePrimitives
        [("kind", Value.str "Namespace"),
          ("metadata", Value.smap [("name", Value.str "shop"),
            ("labels", Value.smap [("env", Value.str "prod")])])]
        "env=prod" (singleCache "shop" StringMap.make)
      = objectsNamespaceMatchesProvidedSelector samplePrimitives
        [("kind", Value.str "Namespace"),
          ("metadata", Value.smap [("name", Value.str "shop"),
            ("labels", Value.smap [("env", Value.str "prod")])])]
        "env=prod" emptyCache :=
  have h := namespace_document_matches_on_own_labels samplePrimitives
    [("kind", Value.str "Namespace"),
      ("metadata", Value.smap [("name", Value.str "shop"),
        ("labels", Value.smap [("env", Value.str "prod")])])]
    [("name", Value.str "shop"), ("labels", Value.smap [("env", Value.str "prod")])]
    "env=prod" emptyCache (singleCache "shop" StringMap.make) rfl rfl (by decide)
  ⟨rfl, by decide, h.1, h.2.2⟩

/-- Instance of C2: a ClusterRole without a namespace and an invalid selector. -/
theorem cluster_scoped_object_never_matches_witness :
    "ClusterRole" ≠ "Namespace"
    ∧ samplePrimitives.ValidateLabelSelector "env in (" ≠ none
    ∧ objectsNamespaceMatchesProvidedSelector samplePrimitives
        [("kind", Value.str "ClusterRole"), ("metadata", Value.smap [("name", Value.str "admin")])]
        "env in (" (singleCache "" StringMap.make)
      = ⟨(false, none), []⟩ :=
  ⟨by decide, by decide,
    cluster_scoped_object_never_matches samplePrimitives
      [("kind", Value.str "ClusterRole"), ("metadata", Value.smap [("name", Value.str "admin")])]
      [("name", Value.str "admin")] "ClusterRole" "env in (" (singleCache "" StringMap.make)
      rfl rfl (by decide) (Or.inl rfl)⟩

/-- Instance of C3: a Pod in the namespace "checkout", which the cache does not
know: one lookup of "checkout", whose error is the result. -/
theorem namespaced_object_consults_cache_once_witness :
    cacheCalls (objectsNamespaceMatchesProvidedSelector samplePrimitives
        [("kind", Value.str "Pod"), ("metadata", Value.smap [("namespace", Value.str "checkout")])]
        "env=prod" emptyCache).calls = ["checkout"]
    ∧ (objectsNamespaceMatchesProvidedSelector samplePrimitives
        [("kind", Value.str "Pod"), ("metadata", Value.smap [("namespace", Value.str "checkout")])]
        "env=prod" emptyCache).result
      = (false, some (errorsNew "namespace not found")) :=
  have h := namespaced_object_consults_cache_once samplePrimitives
    [("kind", Value.str "Pod"), ("metadata", Value.smap [("namespace", Value.str "checkout")])]
    [("namespace", Value.str "checkout")] "Pod" "checkout" "env=prod" emptyCache
    rfl rfl (by decide) rfl (by decide)
  ⟨h.1, h.2 ⟨StringMap.nilMap⟩ (errorsNew "namespace not found") rfl⟩

/-- Instance of C4: a Pod in the namespace "checkout" and the selector
"env=prod" give `(true, nil)` when the namespace is labelled env=prod and
`(false, nil)` when it is labelled env=staging. -/
theorem namespaced_object_matches_on_cached_labels_witness :
    (objectsNamespaceMatchesProvidedSelector samplePrimitives
        [("kind", Value.str "Pod"), ("metadata", Value.smap [("namespace", Value.str "checkout")])]
        "env=prod" (singleCache "checkout" (StringMap.alloc [("env", "prod")]))).result
      = (true, none)
    ∧ (objectsNamespaceMatchesProvidedSelector samplePrimitives
        [("kind", Value.str "Pod"), ("metadata", Value.smap [("namespace", Value.str "checkout")])]
        "env=prod" (singleCache "checkout" (StringMap.alloc [("env", "staging")]))).result
      = (false, none) :=
  ⟨(namespaced_object_matches_on_cached_labels samplePrimitives
      [("kind", Value.str "Pod"), ("metadata", Value.smap [("namespace", Value.str "checkout")])]
      [("namespace", Value.str "checkout")] "Pod" "checkout" "env=prod"
      (singleCache "checkout" (StringMap.alloc [("env", "prod")]))
      (StringMap.alloc [("env", "prod")]) rfl rfl (by decide) rfl (by decide) rfl
      (by decide)).trans (by decide),
   (namespaced_object_matches_on_cached_labels samplePrimitives
      [("kind", Value.str "Pod"), ("metadata", Value.smap [("namespace", Value.str "checkout")])]
      [("namespace", Value.str "checkout")] "Pod" "checkout" "env=prod"
      (singleCache "checkout" (StringMap.alloc [("env", "staging")]))
      (StringMap.alloc [("env", "staging")]) rfl rfl (by decide) rfl (by decide) rfl
      (by decide)).trans (by decide)⟩

/-- C5 fails as stated: for a ClusterRole without a namespace, the selector
"env in (", which the validation primitive rejects, gives `(false, nil)`. -/
theorem invalid_selector_on_cluster_scoped_object_is_no_error :
    samplePrimitives.ValidateLabelSelector "env in (" ≠ none
    ∧ index [("kind", Value.str "ClusterRole"),
        ("metadata", Value.smap [("name", Value.str "viewer")])] "metadata"
      = Value.smap [("name", Value.str "viewer")]
    ∧ index [("kind", Value.str "ClusterRole"),
        ("metadata", Value.smap [("name", Value.str "viewer")])] "kind"
      = Value.str "ClusterRole"
    ∧ (objectsNamespaceMatchesProvidedSelector samplePrimitives
        [("kind", Value.str "ClusterRole"), ("metadata", Value.smap [("name", Value.str "viewer")])]
        "env in (" emptyCache).result = (false, none) :=
  ⟨by decide, rfl, rfl, by decide⟩

/-- C5, amended: for a document with mapping metadata whose kind is "Namespace",
or is another string while `metadata.namespace` is a non-empty string, and a
selector the validation primitive rejects, the resolver returns false with a
non-nil error, for every cache. -/
theorem invalid_selector_is_an_error_once_labels_are_resolved (graffiti : SelectorPrimitives)
    (obj meta : List (String × Value)) (kind selector : String) (nsc : namespaceCache)
    (hmeta : index obj "metadata" = Value.smap meta)
    (hkind : index obj "kind" = Value.str kind)
    (hscope : kind = "Namespace"
      ∨ ∃ n, meta.lookup "namespace" = some (Value.str n) ∧ n ≠ "")
    (hinvalid : graffiti.ValidateLabelSelector selector ≠ none) :
    (objectsNamespaceMatchesProvidedSelector graffiti obj selector nsc).result.1 = false
      ∧ (objectsNamespaceMatchesProvidedSelector graffiti obj selector nsc).result.2 ≠ none := by
  obtain ⟨e, he⟩ : ∃ e, graffiti.ValidateLabelSelector selector = some e := by
    cases h : graffiti.ValidateLabelSelector selector with
    | none => exact absurd h hinvalid
    | some e => exact ⟨e, rfl⟩
  by_cases hk : kind = "Namespace"
  · simp [objectsNamespaceMatchesProvidedSelector, hmeta, hkind, assertStringMap, assertString,
      hk, validateThenMatch, he]
  · rcases hscope with h | ⟨n, hns, hne⟩
    · exact absurd h hk
    · have hidx : index meta "namespace" = Value.str n := by simp [index, hns]
      have hlen : len n ≠ 0 := fun h => hne ((len_eq_zero_iff n).1 h)
      rcases hlk : nsc.LookupNamespace n with ⟨ns, _ | err⟩ <;>
        simp [objectsNamespaceMatchesProvidedSelector, hmeta, hkind, hidx, assertStringMap,
          assertString, hlen, hk, hlk, validateThenMatch, he]

/-- Instance of amended C5: a Pod in a known namespace with the invalid
selector "env in (". -/
theorem invalid_selector_is_an_error_once_labels_are_resolved_witness :
    samplePrimitives.ValidateLabelSelector "env in (" ≠ none
    ∧ (objectsNamespaceMatchesProvidedSelector samplePrimitives
        [("kind", Value.str "Pod"), ("metadata", Value.smap [("namespace", Value.str "checkout")])]
        "env in (" (singleCache "checkout" StringMap.make)).result.1 = false
    ∧ (objectsNamespaceMatchesProvidedSelector samplePrimitives
        [("kind", Value.str "Pod"), ("metadata", Value.smap [("namespace", Value.str "checkout")])]
        "env in (" (singleCache "checkout" StringMap.make)).result.2 ≠ none :=
  have h := invalid_selector_is_an_error_once_labels_are_resolved samplePrimitives
    [("kind", Value.str "Pod"), ("metadata", Value.smap [("namespace", Value.str "checkout")])]
    [("namespace", Value.str "checkout")] "Pod" "env in ("
    (singleCache "checkout" StringMap.make) rfl rfl
    (Or.inr ⟨"checkout", rfl, by decide⟩) (by decide)
  ⟨by decide, h.1, h.2⟩

/-- C6: if `metadata` is absent or is not a `map[string]interface{}`, the
resolver returns false with the missing-metadata error, whatever the kind;
otherwise, if `kind` is absent or not a string, it returns false with the
missing-kind error.  In both cases no collaborator is called: the selector is
not validated and the cache is not consulted. -/
theorem malformed_document_is_a_structural_error (graffiti : SelectorPrimitives)
    (obj : List (String × Value)) (selector : String) (nsc : namespaceCache) :
    ((∀ meta, index obj "metadata" ≠ Value.smap meta) →
        objectsNamespaceMatchesProvidedSelector graffiti obj selector nsc
          = ⟨(false, some (errorsNew "the object is missing metadata")), []⟩)
      ∧ (∀ meta, index obj "metadata" = Value.smap meta →
          (∀ kind, index obj "kind" ≠ Value.str kind) →
          objectsNamespaceMatchesProvidedSelector graffiti obj selector nsc
            = ⟨(false, some (errorsNew "this object seems to have no kind")), []⟩) := by
  constructor
  · intro hno
    cases hm : index obj "metadata" with
    | smap meta => exact absurd hm (hno meta)
    | _ => simp [objectsNamespaceMatchesProvidedSelector, hm, assertStringMap]
  · intro meta hmeta hno
    cases hk : index obj "kind" with
    | str kind => exact absurd hk (hno kind)
    | _ => simp [objectsNamespaceMatchesProvidedSelector, hmeta, hk, assertStringMap,
        assertString]

/-- Instance of C6: a document with neither metadata nor kind gets the
missing-metadata error, and one with metadata but a numeric kind gets the
missing-kind error. -/
theorem malformed_document_is_a_structural_error_witness :
    objectsNamespaceMatchesProvidedSelector samplePrimitives
        [("apiVersion", Value.str "v1")] "env=prod" emptyCache
      = ⟨(false, some (errorsNew "the object is missing metadata")), []⟩
    ∧ objectsNamespaceMatchesProvidedSelector samplePrimitives
        [("kind", Value.num 7), ("metadata", Value.smap [])] "env=prod" emptyCache
      = ⟨(false, some (errorsNew "this object seems to have no kind")), []⟩ :=
  ⟨(malformed_document_is_a_structural_error samplePrimitives
      [("apiVersion", Value.str "v1")] "env=prod" emptyCache).1
      (fun _ h => Value.noConfusion h),
   (malformed_document_is_a_structural_error samplePrimitives
      [("kind", Value.num 7), ("metadata", Value.smap [])] "env=prod" emptyCache).2
      [] rfl (fun _ h => Value.noConfusion h)⟩

/-! ## Facts about label extraction -/

theorem getStringValue_ofValue (v : Value) :
    getStringValue (RValue.ofValue v) = assertString v := by
  rw [getStringValue]
  cases v <;> simp [RValue.Kind, RValue.String, assertString]

theorem getStringValue_eq (r : RValue) : getStringValue r = assertString r.Interface := by
  cases r with
  | ofValue v => exact getStringValue_ofValue v
  | ofInterface v =>
    rw [getStringValue]
    simp [RValue.Kind, reflectValueOf, RValue.Interface, getStringValue_ofValue]

theorem convertToMapStringString_ofValue (v : Value) :
    convertToMapStringString (RValue.ofValue v)
      = convertLoop (RValue.ofValue v).MapEntries StringMap.make := by
  rw [convertToMapStringString]
  cases v <;> simp [RValue.Kind, RValue.MapEntries, convertLoop]

theorem convertToMapStringString_ofInterface (v : Value) :
    convertToMapStringString (RValue.ofInterface v)
      = convertLoop (RValue.ofValue v).MapEntries StringMap.make := by
  rw [convertToMapStringString]
  simp [RValue.Kind, reflectValueOf, RValue.Interface, convertToMapStringString_ofValue]

theorem assign_of_not_mem (acc : List (String × String)) (k v : String)
    (h : k ∉ acc.map Prod.fst) : assign acc k v = acc ++ [(k, v)] := by
  induction acc with
  | nil => rfl
  | cons p rest ih =>
    obtain ⟨k', v'⟩ := p
    simp only [List.map_cons, List.mem_cons, not_or] at h
    have hne : ¬ k' = k := fun e => h.1 e.symm
    simp [assign, hne, ih h.2]

theorem convertLoop_eq (es : List (RValue × RValue)) :
    ∀ acc : List (String × String),
      ((acc ++ es.filterMap labelOf).map Prod.fst).Nodup →
      convertLoop es (StringMap.alloc acc) = StringMap.alloc (acc ++ es.filterMap labelOf) := by
  induction es with
  | nil => intro acc _; simp [convertLoop]
  | cons p rest ih =>
    intro acc hnd
    obtain ⟨k, v⟩ := p
    rcases hk : getStringValue k with ⟨ks, _ | _⟩
    · have hl : labelOf (k, v) = none := by simp [labelOf, hk]
      simp only [List.filterMap_cons, hl] at hnd ⊢
      simp only [convertLoop, hk]
      exact ih acc hnd
    · rcases hv : getStringValue v with ⟨vs, _ | _⟩
      · have hl : labelOf (k, v) = none := by simp [labelOf, hk, hv]
        simp only [List.filterMap_cons, hl] at hnd ⊢
        simp only [convertLoop, hk, hv]
        exact ih acc hnd
      · have hl : labelOf (k, v) = some (ks, vs) := by simp [labelOf, hk, hv]
        simp only [List.filterMap_cons, hl] at hnd ⊢
        have hnd2 : (((acc ++ [(ks, vs)]) ++ rest.filterMap labelOf).map Prod.fst).Nodup := by
          simpa [List.append_assoc] using hnd
        have hnot : ks ∉ acc.map Prod.fst := by
          intro hmem
          rw [List.map_append, List.nodup_append] at hnd
          exact hnd.2.2 hmem (by simp)
        simp only [convertLoop, hk, hv, StringMap.set, assign_of_not_mem acc ks vs hnot]
        rw [ih _ hnd2]
        simp [List.append_assoc]

theorem labelOf_eq (k v : RValue) : labelOf (k, v) = stringPair (k.Interface, v.Interface) := by
  simp only [labelOf, getStringValue_eq, stringPair]
  cases k.Interface <;> cases v.Interface <;> simp [assertString]

theorem filterMap_labelOf_mapEntries (v : Value) :
    (RValue.ofValue v).MapEntries.filterMap labelOf = v.pairs.filterMap stringPair := by
  cases v <;>
    simp [RValue.MapEntries, Value.pairs, List.filterMap_map, Function.comp_def, labelOf_eq,
      RValue.Interface]

theorem mem_filterMap_stringPair (ps : List (Value × Value)) (k s : String) :
    (k, s) ∈ ps.filterMap stringPair ↔ (Value.str k, Value.str s) ∈ ps := by
  simp only [List.mem_filterMap]
  constructor
  · rintro ⟨⟨a, b⟩, hmem, hp⟩
    cases a <;> cases b <;> simp [stringPair] at hp
    obtain ⟨rfl, rfl⟩ := hp
    exact hmem
  · intro h
    exact ⟨_, h, by simp [stringPair]⟩

theorem nodup_keys_filterMap_stringPair (ps : List (Value × Value))
    (h : (ps.map Prod.fst).Nodup) : ((ps.filterMap stringPair).map Prod.fst).Nodup := by
  induction ps with
  | nil => simp
  | cons p rest ih =>
    simp only [List.map_cons, List.nodup_cons] at h
    cases hp : stringPair p with
    | none => simpa [List.filterMap_cons, hp] using ih h.2
    | some q =>
      obtain ⟨k, s⟩ := q
      simp only [List.filterMap_cons, hp, List.map_cons, List.nodup_cons]
      refine ⟨?_, ih h.2⟩
      intro hmem
      obtain ⟨⟨k2, s2⟩, hq, hk⟩ := List.mem_map.1 hmem
      simp only at hk
      subst hk
      have hin := (mem_filterMap_stringPair rest k2 s2).1 hq
      have hfst : p.1 = Value.str k2 := by
        obtain ⟨a, b⟩ := p
        cases a <;> cases b <;> simp [stringPair] at hp
        simp [hp.1]
      exact h.1 (List.mem_map.2 ⟨_, hin, hfst.symm⟩)

/-- The labels extracted from the value stored under "labels": for a map with
unique keys, its string-to-string entries in enumeration order. -/
theorem convertToMapStringString_eq (v : Value) (hwf : v.KeysNodup) :
    convertToMapStringString (RValue.ofInterface v)
      = StringMap.alloc (v.pairs.filterMap stringPair) := by
  rw [convertToMapStringString_ofInterface]
  have h := convertLoop_eq (RValue.ofValue v).MapEntries []
  rw [filterMap_labelOf_mapEntries] at h
  simpa [StringMap.make] using h (by simpa using nodup_keys_filterMap_stringPair _ hwf)

theorem lookupLoop_mapEntries (m : Value) :
    lookupLoop (RValue.ofValue m).MapEntries
      = (m.pairs.find? fun p => decide ((assertString p.1).1 = "labels")).map
          fun p => convertToMapStringString (RValue.ofInterface p.2) := by
  cases m with
  | smap es =>
    induction es with
    | nil => simp [RValue.MapEntries, Value.pairs, lookupLoop]
    | cons p rest ih =>
      simp only [RValue.MapEntries, Value.pairs, List.map_cons, lookupLoop, getStringValue_eq,
        RValue.Interface, List.find?_cons] at ih ⊢
      by_cases h : (assertString (Value.str p.1)).1 = "labels"
      · simp [h]
      · simp [h, ih]
  | amap es =>
    induction es with
    | nil => simp [RValue.MapEntries, Value.pairs, lookupLoop]
    | cons p rest ih =>
      simp only [RValue.MapEntries, Value.pairs, List.map_cons, lookupLoop, getStringValue_eq,
        RValue.Interface, List.find?_cons] at ih ⊢
      by_cases h : (assertString p.1).1 = "labels"
      · simp [h]
      · simp [h, ih]
  | _ => simp [RValue.MapEntries, Value.pairs, lookupLoop]

theorem lookupLabels_eq (m : Value) :
    lookupLabels m
      = match m.pairs.find? fun p => decide ((assertString p.1).1 = "labels") with
        | some p => convertToMapStringString (RValue.ofInterface p.2)
        | none => StringMap.make := by
  simp only [lookupLabels, reflectValueOf]
  rw [lookupLoop_mapEntries]
  cases m with
  | smap es =>
    cases List.find? (fun p => decide ((assertString p.1).1 = "labels")) (Value.smap es).pairs <;>
      simp [RValue.Kind]
  | amap es =>
    cases List.find? (fun p => decide ((assertString p.1).1 = "labels")) (Value.amap es).pairs <;>
      simp [RValue.Kind]
  | _ => simp [RValue.Kind, Value.pairs]

theorem assertString_eq_labels (a : Value) :
    (assertString a).1 = "labels" ↔ a = Value.str "labels" := by
  cases a <;> simp [assertString]

theorem find_labels_of_mem (ps : List (Value × Value)) (v : Value)
    (hnd : (ps.map Prod.fst).Nodup) (hmem : (Value.str "labels", v) ∈ ps) :
    ps.find? (fun p => decide ((assertString p.1).1 = "labels")) = some (Value.str "labels", v) := by
  induction ps with
  | nil => simp at hmem
  | cons p rest ih =>
    simp only [List.map_cons, List.nodup_cons] at hnd
    rcases List.mem_cons.1 hmem with h | h
    · subst h
      simp [List.find?_cons, assertString]
    · have hne : p.1 ≠ Value.str "labels" := by
        intro e
        exact hnd.1 (List.mem_map.2 ⟨_, h, e.symm⟩)
      have hno : ¬ (assertString p.1).1 = "labels" := fun e => hne ((assertString_eq_labels _).1 e)
      simp [List.find?_cons, hno, ih hnd.2 h]

theorem find_labels_none (ps : List (Value × Value))
    (hno : ∀ v, (Value.str "labels", v) ∉ ps) :
    ps.find? (fun p => decide ((assertString p.1).1 = "labels")) = none := by
  rw [List.find?_eq_none]
  intro p hp
  obtain ⟨a, b⟩ := p
  simp only [decide_eq_true_eq]
  intro e
  rw [assertString_eq_labels] at e
  have e2 : a = Value.str "labels" := e
  subst e2
  exact hno b hp

theorem pairs_of_not_isMap (m : Value) (h : ¬ m.IsMap) : m.pairs = [] := by
  cases m <;> simp [Value.IsMap, Value.pairs] at h ⊢

theorem convertToMapStringString_of_not_isMap (v : Value) (h : ¬ v.IsMap) :
    convertToMapStringString (RValue.ofInterface v) = StringMap.make := by
  rw [convertToMapStringString_ofInterface]
  cases v <;> simp [Value.IsMap, RValue.MapEntries, convertLoop] at h ⊢

theorem lookupLabels_smap (es : List (String × Value)) :
    lookupLabels (Value.smap es)
      = match es.lookup "labels" with
        | some v => convertToMapStringString (RValue.ofInterface v)
        | none => StringMap.make := by
  rw [lookupLabels_eq]
  induction es with
  | nil => simp [Value.pairs]
  | cons p rest ih =>
    obtain ⟨k, x⟩ := p
    have hp : (Value.smap ((k, x) :: rest)).pairs
        = (Value.str k, x) :: (Value.smap rest).pairs := rfl
    rw [hp]
    by_cases h : k = "labels"
    · subst h
      simp [assertString]
    · have h2 : ("labels" == k) = false := by
        simp only [beq_eq_false_iff_ne, ne_eq]
        exact fun e => h e.symm
      rw [List.find?_cons_of_neg _ (by simpa [assertString] using h), List.lookup_cons]
      simp only [h2]
      exact ih

theorem pairs_encodeMap (yaml : Bool) (es : List (String × Value)) :
    (encodeMap yaml es).pairs = es.map fun kv => (Value.str kv.1, kv.2) := by
  cases yaml <;> simp [encodeMap, encodeJSON, encodeYAML, Value.pairs]

theorem mapEntries_interface (v : Value) :
    ((RValue.ofValue v).MapEntries.map fun kv => (kv.1.Interface, kv.2.Interface)) = v.pairs := by
  cases v <;> simp [RValue.MapEntries, Value.pairs, RValue.Interface, Function.comp_def]

theorem convertLoop_congr (es : List (RValue × RValue)) :
    ∀ (es2 : List (RValue × RValue)) (labels : StringMap),
      (es.map fun kv => (kv.1.Interface, kv.2.Interface))
        = (es2.map fun kv => (kv.1.Interface, kv.2.Interface)) →
      convertLoop es labels = convertLoop es2 labels := by
  induction es with
  | nil =>
    intro es2 labels h
    cases es2 with
    | nil => rfl
    | cons _ _ => simp at h
  | cons p rest ih =>
    intro es2 labels h
    cases es2 with
    | nil => simp at h
    | cons q rest2 =>
      obtain ⟨k, v⟩ := p
      obtain ⟨k2, v2⟩ := q
      simp only [List.map_cons, List.cons.injEq, Prod.mk.injEq] at h
      obtain ⟨⟨hk, hv⟩, hrest⟩ := h
      simp only [convertLoop, getStringValue_eq, hk, hv]
      rcases assertString k2.Interface with ⟨ks, _ | _⟩ <;>
        rcases assertString v2.Interface with ⟨vs, _ | _⟩ <;>
        simp only [] <;> exact ih rest2 _ hrest

theorem convertToMapStringString_encodeMap (yaml : Bool) (es : List (String × Value)) :
    convertToMapStringString (RValue.ofInterface (encodeMap yaml es))
      = convertToMapStringString (RValue.ofInterface (encodeJSON es)) := by
  rw [convertToMapStringString_ofInterface, convertToMapStringString_ofInterface]
  apply convertLoop_congr
  rw [mapEntries_interface, mapEntries_interface, pairs_encodeMap]
  simp [encodeJSON, Value.pairs]

theorem lookupLabels_encodeMap (yaml : Bool) (es : List (String × Value)) :
    lookupLabels (encodeMap yaml es) = lookupLabels (encodeJSON es) := by
  rw [lookupLabels_eq, lookupLabels_eq, pairs_encodeMap]
  simp [encodeJSON, Value.pairs]

theorem lookup_labels_append (before after : List (String × Value)) (x : Value) :
    (before ++ ("labels", x) :: after).lookup "labels"
      = match before.lookup "labels" with
        | some v => some v
        | none => some x := by
  induction before with
  | nil => simp [List.lookup_cons]
  | cons p rest ih =>
    obtain ⟨k, y⟩ := p
    simp only [List.cons_append, List.lookup_cons]
    cases hk : ("labels" == k) with
    | true => simp
    | false => simpa using ih

theorem lookupLabels_labels_entry (before after : List (String × Value)) (x : Value) :
    lookupLabels (Value.smap (before ++ ("labels", x) :: after))
      = match before.lookup "labels" with
        | some v => convertToMapStringString (RValue.ofInterface v)
        | none => convertToMapStringString (RValue.ofInterface x) := by
  rw [lookupLabels_smap, lookup_labels_append]
  cases before.lookup "labels" <;> rfl

theorem lookup_eq_none_of_not_mem (es : List (String × Value)) (k : String)
    (h : ∀ v, (k, v) ∉ es) : es.lookup k = none := by
  induction es with
  | nil => rfl
  | cons p rest ih =>
    obtain ⟨k2, y⟩ := p
    have hne : k ≠ k2 := by
      intro e
      subst e
      exact h y (List.mem_cons_self _ _)
    have hb : (k == k2) = false := by simpa using hne
    simp only [List.lookup_cons, hb]
    exact ih fun v hv => h v (List.mem_cons_of_mem _ hv)

theorem convertToMapStringString_labelEntries (ls : List (String × String))
    (hnd : (ls.map Prod.fst).Nodup) :
    convertToMapStringString (RValue.ofInterface (Value.smap (labelEntries ls)))
      = StringMap.alloc ls := by
  have hwf : (Value.smap (labelEntries ls)).KeysNodup := by
    simp only [Value.KeysNodup, Value.pairs, labelEntries, List.map_map]
    have : (Prod.fst ∘ (fun kv : String × Value => (Value.str kv.1, kv.2))
        ∘ fun kv : String × String => (kv.1, Value.str kv.2)) = Value.str ∘ Prod.fst := rfl
    rw [this, ← List.map_map]
    exact hnd.map fun a b h => by injection h
  rw [convertToMapStringString_eq _ hwf]
  congr 1
  simp only [Value.pairs, labelEntries, List.map_map, List.filterMap_map]
  have : (stringPair ∘ (fun kv : String × Value => (Value.str kv.1, kv.2))
      ∘ fun kv : String × String => (kv.1, Value.str kv.2)) = some := rfl
  rw [this, List.filterMap_some]

/-! ## Properties of label extraction -/

/-- C7: `lookupLabels` is representation-agnostic.  For label pairs `ls` stored
under the key "labels" among any surrounding entries, encoding the enclosing
map and the labels map JSON-style or YAML-style, in any combination, yields the
same extracted map; and when the surrounding entries have no second "labels"
key and the label keys are distinct, that map holds exactly the pairs `ls`. -/
theorem lookupLabels_representation_agnostic (before after : List (String × Value))
    (ls : List (String × String)) :
    (∀ outer inner outer2 inner2 : Bool,
      lookupLabels (encodeMap outer
          (before ++ ("labels", encodeMap inner (labelEntries ls)) :: after))
        = lookupLabels (encodeMap outer2
          (before ++ ("labels", encodeMap inner2 (labelEntries ls)) :: after)))
      ∧ ((∀ v, ("labels", v) ∉ before) → (ls.map Prod.fst).Nodup →
          ∀ outer inner : Bool,
            lookupLabels (encodeMap outer
              (before ++ ("labels", encodeMap inner (labelEntries ls)) :: after))
            = StringMap.alloc ls) := by
  have hnorm : ∀ outer inner : Bool,
      lookupLabels (encodeMap outer
          (before ++ ("labels", encodeMap inner (labelEntries ls)) :: after))
        = match before.lookup "labels" with
          | some v => convertToMapStringString (RValue.ofInterface v)
          | none => convertToMapStringString
              (RValue.ofInterface (Value.smap (labelEntries ls))) := by
    intro outer inner
    rw [lookupLabels_encodeMap, encodeJSON, lookupLabels_labels_entry,
      convertToMapStringString_encodeMap, encodeJSON]
  constructor
  · intro outer inner outer2 inner2
    rw [hnorm, hnorm]
  · intro hno hnd outer inner
    rw [hnorm, lookup_eq_none_of_not_mem before "labels" hno]
    exact convertToMapStringString_labelEntries ls hnd

/-- Instance of C7: the labels env=prod and tier=web beside a name entry, JSON
in JSON against YAML in YAML. -/
theorem lookupLabels_representation_agnostic_witness :
    lookupLabels (Value.smap [("name", Value.str "shop"),
        ("labels", Value.smap [("env", Value.str "prod"), ("tier", Value.str "web")])])
      = StringMap.alloc [("env", "prod"), ("tier", "web")]
    ∧ lookupLabels (Value.amap [(Value.str "name", Value.str "shop"),
        (Value.str "labels",
          Value.amap [(Value.str "env", Value.str "prod"), (Value.str "tier", Value.str "web")])])
      = StringMap.alloc [("env", "prod"), ("tier", "web")] :=
  have h := (lookupLabels_representation_agnostic [("name", Value.str "shop")] []
    [("env", "prod"), ("tier", "web")]).2 (by simp) (by simp)
  ⟨h false false, h true true⟩

/-- C8: for a map `m` (of either representation, with unique keys) that has the
top-level key "labels" with value `v`: if `v` is a map, `lookupLabels m` is an
allocated map whose entries are exactly the pairs (k, s) such that `v` maps the
string k to the string s, each key once; if `v` is not a map, `lookupLabels m`
is the empty map. -/
theorem lookupLabels_is_string_entries_of_labels (m v : Value)
    (hwf : m.KeysNodup) (hlabels : (Value.str "labels", v) ∈ m.pairs) :
    (v.IsMap → v.KeysNodup →
        ∃ l, lookupLabels m = StringMap.alloc l ∧ (l.map Prod.fst).Nodup
          ∧ ∀ k s, (k, s) ∈ l ↔ (Value.str k, Value.str s) ∈ v.pairs)
      ∧ (¬ v.IsMap → lookupLabels m = StringMap.make) := by
  have hfind := find_labels_of_mem m.pairs v hwf hlabels
  have hlook : lookupLabels m = convertToMapStringString (RValue.ofInterface v) := by
    rw [lookupLabels_eq, hfind]
  constructor
  · intro _ hv
    refine ⟨v.pairs.filterMap stringPair, ?_, nodup_keys_filterMap_stringPair _ hv, ?_⟩
    · rw [hlook, convertToMapStringString_eq v hv]
    · intro k s
      exact mem_filterMap_stringPair v.pairs k s
  · intro hv
    rw [hlook, convertToMapStringString_of_not_isMap v hv]

/-- Instance of C8: a YAML-style map with a numeric key and a labels map that
holds one string entry, a number, a nil and a nested map. -/
theorem lookupLabels_is_string_entries_of_labels_witness :
    (∃ l, lookupLabels (Value.amap [(Value.num 1, Value.str "x"),
          (Value.str "labels", Value.smap [("env", Value.str "prod"), ("replicas", Value.num 3),
            ("owner", Value.nil), ("extra", Value.smap [("a", Value.str "b")])])])
        = StringMap.alloc l ∧ (l.map Prod.fst).Nodup
        ∧ ∀ k s, (k, s) ∈ l ↔ (Value.str k, Value.str s) ∈
          (Value.smap [("env", Value.str "prod"), ("replicas", Value.num 3),
            ("owner", Value.nil), ("extra", Value.smap [("a", Value.str "b")])]).pairs)
    ∧ lookupLabels (Value.smap [("labels", Value.str "none")]) = StringMap.make :=
  ⟨(lookupLabels_is_string_entries_of_labels
      (Value.amap [(Value.num 1, Value.str "x"),
        (Value.str "labels", Value.smap [("env", Value.str "prod"), ("replicas", Value.num 3),
          ("owner", Value.nil), ("extra", Value.smap [("a", Value.str "b")])])])
      (Value.smap [("env", Value.str "prod"), ("replicas", Value.num 3),
        ("owner", Value.nil), ("extra", Value.smap [("a", Value.str "b")])])
      (by simp [Value.KeysNodup, Value.pairs]) (by simp [Value.pairs])).1
      trivial (by simp [Value.KeysNodup, Value.pairs]),
   (lookupLabels_is_string_entries_of_labels (Value.smap [("labels", Value.str "none")])
      (Value.str "none") (by simp [Value.KeysNodup, Value.pairs]) (by simp [Value.pairs])).2
      (fun h => h)⟩

/-- C9: for a value that is not a map, and for a map without a top-level key
equal to the string "labels", `lookupLabels` returns the map made by
`make(map[string]string)`: allocated (not nil) and empty. -/
theorem lookupLabels_empty_without_labels_key (m : Value)
    (h : ¬ m.IsMap ∨ ∀ v, (Value.str "labels", v) ∉ m.pairs) :
    lookupLabels m = StringMap.make ∧ lookupLabels m ≠ StringMap.nilMap
      ∧ (lookupLabels m).len = 0 := by
  have hno : ∀ v, (Value.str "labels", v) ∉ m.pairs := by
    rcases h with h | h
    · intro v
      simp [pairs_of_not_isMap m h]
    · exact h
  have hmake : lookupLabels m = StringMap.make := by
    rw [lookupLabels_eq, find_labels_none m.pairs hno]
  rw [hmake]
  exact ⟨rfl, by simp [StringMap.make], rfl⟩

/-- Instance of C9: a list, and a map whose only "labels" key is nested one
level down beside a numeric top-level key. -/
theorem lookupLabels_empty_without_labels_key_witness :
    (lookupLabels (Value.list [Value.str "labels"]) = StringMap.make
      ∧ lookupLabels (Value.list [Value.str "labels"]) ≠ StringMap.nilMap
      ∧ (lookupLabels (Value.list [Value.str "labels"])).len = 0)
    ∧ (lookupLabels (Value.amap [(Value.num 7, Value.str "labels"),
          (Value.str "spec", Value.smap [("labels", Value.smap [("env", Value.str "prod")])])])
        = StringMap.make
      ∧ lookupLabels (Value.amap [(Value.num 7, Value.str "labels"),
          (Value.str "spec", Value.smap [("labels", Value.smap [("env", Value.str "prod")])])])
        ≠ StringMap.nilMap
      ∧ (lookupLabels (Value.amap [(Value.num 7, Value.str "labels"),
          (Value.str "spec", Value.smap [("labels", Value.smap [("env", Value.str "prod")])])])).len
        = 0) :=
  ⟨lookupLabels_empty_without_labels_key (Value.list [Value.str "labels"])
      (Or.inl fun h => h),
   lookupLabels_empty_without_labels_key
      (Value.amap [(Value.num 7, Value.str "labels"),
        (Value.str "spec", Value.smap [("labels", Value.smap [("env", Value.str "prod")])])])
      (Or.inr (by simp [Value.pairs]))⟩

/-- C10: for a document of kind "Namespace" whose metadata has no "labels" key
or an empty labels map, a selector that the validation primitive accepts and
that the match primitive matches against the empty label set gives
`(true, nil)`. -/
theorem unlabelled_namespace_matches_negative_selector (graffiti : SelectorPrimitives)
    (obj meta : List (String × Value)) (selector : String) (nsc : namespaceCache)
    (hmeta : index obj "metadata" = Value.smap meta)
    (hkind : index obj "kind" = Value.str "Namespace")
    (hnolabels : meta.lookup "labels" = none ∨ meta.lookup "labels" = some (Value.smap [])
      ∨ meta.lookup "labels" = some (Value.amap []))
    (hvalid : graffiti.ValidateLabelSelector selector = none)
    (hmatch : graffiti.MatchLabelSelector selector StringMap.make = (true, none)) :
    (objectsNamespaceMatchesProvidedSelector graffiti obj selector nsc).result
      = (true, none) := by
  have hlabels : lookupLabels (Value.smap meta) = StringMap.make := by
    rw [lookupLabels_smap]
    rcases hnolabels with h | h | h
    · rw [h]
    · rw [h]
      exact convertToMapStringString_ofInterface _
    · rw [h]
      exact convertToMapStringString_ofInterface _
  simp [objectsNamespaceMatchesProvidedSelector, hmeta, hkind, assertStringMap, assertString,
    validateThenMatch, hvalid, hlabels, hmatch]

/-- Instance of C10: a namespace without labels and the selector "!env" (the
key env does not exist), with a cache in which every lookup fails. -/
theorem unlabelled_namespace_matches_negative_selector_witness :
    samplePrimitives.ValidateLabelSelector "!env" = none
    ∧ samplePrimitives.MatchLabelSelector "!env" StringMap.make = (true, none)
    ∧ (objectsNamespaceMatchesProvidedSelector samplePrimitives
        [("kind", Value.str "Namespace"), ("metadata", Value.smap [("name", Value.str "bare")])]
        "!env" emptyCache).result = (true, none) :=
  ⟨by decide, by decide,
    unlabelled_namespace_matches_negative_selector samplePrimitives
      [("kind", Value.str "Namespace"), ("metadata", Value.smap [("name", Value.str "bare")])]
      [("name", Value.str "bare")] "!env" emptyCache rfl rfl (Or.inl rfl)
      (by decide) (by decide)⟩

/-! ## Further properties of the resolver -/

/-- C13 fails as stated: a Namespace document labelled env=prod matches the
selector "env=prod" when its metadata is a JSON-style string-keyed map, and is
rejected with the missing-metadata error when the same metadata is a YAML-style
any-keyed map. -/
theorem yaml_style_metadata_is_rejected_where_json_style_matches :
    (objectsNamespaceMatchesProvidedSelector samplePrimitives
        [("kind", Value.str "Namespace"),
          ("metadata", Value.smap [("labels", Value.smap [("env", Value.str "prod")])])]
        "env=prod" emptyCache).result = (true, none)
    ∧ (objectsNamespaceMatchesProvidedSelector samplePrimitives
        [("kind", Value.str "Namespace"),
          ("metadata", Value.amap [(Value.str "labels",
            Value.amap [(Value.str "env", Value.str "prod")])])]
        "env=prod" emptyCache).result
      = (false, some (errorsNew "the object is missing metadata")) := by
  constructor
  · have hl : lookupLabels (Value.smap [("labels", Value.smap [("env", Value.str "prod")])])
        = StringMap.alloc [("env", "prod")] := by
      rw [lookupLabels_smap]
      exact convertToMapStringString_labelEntries [("env", "prod")] (by simp)
    have hv : samplePrimitives.ValidateLabelSelector "env=prod" = none := by decide
    have hm : samplePrimitives.MatchLabelSelector "env=prod" (StringMap.alloc [("env", "prod")])
        = (true, none) := by decide
    have hmeta : index [("kind", Value.str "Namespace"),
        ("metadata", Value.smap [("labels", Value.smap [("env", Value.str "prod")])])] "metadata"
        = Value.smap [("labels", Value.smap [("env", Value.str "prod")])] := rfl
    have hkind : index [("kind", Value.str "Namespace"),
        ("metadata", Value.smap [("labels", Value.smap [("env", Value.str "prod")])])] "kind"
        = Value.str "Namespace" := rfl
    simp [objectsNamespaceMatchesProvidedSelector, hmeta, hkind, assertStringMap, assertString,
      validateThenMatch, hl, hv, hm]
  · decide

/-- C13, amended: the resolver treats both representations of the labels map
identically.  For Namespace documents whose metadata is a string-keyed map, the
outcome is the same whether the labels value in the metadata is encoded
JSON-style or YAML-style; a document whose metadata itself is an any-keyed map
gets the missing-metadata error and no collaborator is called. -/
theorem labels_representation_does_not_change_the_outcome (graffiti : SelectorPrimitives)
    (obj obj2 before after le : List (String × Value)) (inner inner2 : Bool)
    (selector : String) (nsc : namespaceCache)
    (hmeta : index obj "metadata"
      = Value.smap (before ++ ("labels", encodeMap inner le) :: after))
    (hmeta2 : index obj2 "metadata"
      = Value.smap (before ++ ("labels", encodeMap inner2 le) :: after))
    (hkind : index obj "kind" = Value.str "Namespace")
    (hkind2 : index obj2 "kind" = Value.str "Namespace") :
    objectsNamespaceMatchesProvidedSelector graffiti obj selector nsc
        = objectsNamespaceMatchesProvidedSelector graffiti obj2 selector nsc
      ∧ ∀ (doc : List (String × Value)) (es : List (Value × Value)),
          index doc "metadata" = Value.amap es →
          objectsNamespaceMatchesProvidedSelector graffiti doc selector nsc
            = ⟨(false, some (errorsNew "the object is missing metadata")), []⟩ := by
  have hl : ∀ b : Bool,
      lookupLabels (Value.smap (before ++ ("labels", encodeMap b le) :: after))
        = lookupLabels (Value.smap (before ++ ("labels", encodeJSON le) :: after)) := by
    intro b
    rw [lookupLabels_labels_entry, lookupLabels_labels_entry,
      convertToMapStringString_encodeMap]
  constructor
  · simp [objectsNamespaceMatchesProvidedSelector, hmeta, hmeta2, hkind, hkind2,
      assertStringMap, assertString, hl inner, hl inner2]
  · intro doc es hdoc
    simp [objectsNamespaceMatchesProvidedSelector, hdoc, assertStringMap]

/-- Instance of amended C13: the labels env=prod JSON-style in one document and
YAML-style in the other, both inside string-keyed metadata. -/
theorem labels_representation_does_not_change_the_outcome_witness :
    objectsNamespaceMatchesProvidedSelector samplePrimitives
        [("kind", Value.str "Namespace"),
          ("metadata", Value.smap [("labels", Value.smap [("env", Value.str "prod")])])]
        "env=prod" emptyCache
      = objectsNamespaceMatchesProvidedSelector samplePrimitives
        [("kind", Value.str "Namespace"),
          ("metadata", Value.smap [("labels",
            Value.amap [(Value.str "env", Value.str "prod")])])]
        "env=prod" emptyCache :=
  (labels_representation_does_not_change_the_outcome samplePrimitives
    [("kind", Value.str "Namespace"),
      ("metadata", Value.smap [("labels", Value.smap [("env", Value.str "prod")])])]
    [("kind", Value.str "Namespace"),
      ("metadata", Value.smap [("labels", Value.amap [(Value.str "env", Value.str "prod")])])]
    [] [] [("env", Value.str "prod")] false true "env=prod" emptyCache rfl rfl rfl rfl).1

/-- C14 fails as stated: a Namespace document with the labels env=prod at its
top level and none in its metadata does not match "env=prod", although the
match primitive matches that selector against the top-level labels. -/
theorem top_level_labels_are_not_matched :
    lookupLabels (Value.smap [("kind", Value.str "Namespace"),
        ("labels", Value.smap [("env", Value.str "prod")]),
        ("metadata", Value.smap [("name", Value.str "shop")])])
      = StringMap.alloc [("env", "prod")]
    ∧ samplePrimitives.ValidateLabelSelector "env=prod" = none
    ∧ samplePrimitives.MatchLabelSelector "env=prod" (StringMap.alloc [("env", "prod")])
      = (true, none)
    ∧ (objectsNamespaceMatchesProvidedSelector samplePrimitives
        [("kind", Value.str "Namespace"), ("labels", Value.smap [("env", Value.str "prod")]),
          ("metadata", Value.smap [("name", Value.str "shop")])]
        "env=prod" emptyCache).result = (false, none) := by
  refine ⟨?_, by decide, by decide, ?_⟩
  · rw [lookupLabels_smap]
    exact convertToMapStringString_labelEntries [("env", "prod")] (by simp)
  · have hl : lookupLabels (Value.smap [("name", Value.str "shop")]) = StringMap.make := by
      rw [lookupLabels_smap]
      rfl
    have hv : samplePrimitives.ValidateLabelSelector "env=prod" = none := by decide
    have hm : samplePrimitives.MatchLabelSelector "env=prod" StringMap.make
        = (false, none) := by decide
    have hmeta : index [("kind", Value.str "Namespace"),
        ("labels", Value.smap [("env", Value.str "prod")]),
        ("metadata", Value.smap [("name", Value.str "shop")])] "metadata"
        = Value.smap [("name", Value.str "shop")] := rfl
    have hkind : index [("kind", Value.str "Namespace"),
        ("labels", Value.smap [("env", Value.str "prod")]),
        ("metadata", Value.smap [("name", Value.str "shop")])] "kind"
        = Value.str "Namespace" := rfl
    simp [objectsNamespaceMatchesProvidedSelector, hmeta, hkind, assertStringMap, assertString,
      validateThenMatch, hl, hv, hm]

/-- C14, amended: for a document of kind "Namespace" whose metadata mapping has
no "labels" key, and a selector the validation primitive accepts, the resolver
returns what the match primitive returns for the selector and the empty label
set, whatever the document holds at its top level: labels are read from the
metadata only. -/
theorem namespace_labels_are_read_from_metadata_only (graffiti : SelectorPrimitives)
    (obj meta : List (String × Value)) (selector : String) (nsc : namespaceCache)
    (hmeta : index obj "metadata" = Value.smap meta)
    (hkind : index obj "kind" = Value.str "Namespace")
    (hnone : meta.lookup "labels" = none)
    (hvalid : graffiti.ValidateLabelSelector selector = none) :
    (objectsNamespaceMatchesProvidedSelector graffiti obj selector nsc).result
      = graffiti.MatchLabelSelector selector StringMap.make := by
  have hl : lookupLabels (Value.smap meta) = StringMap.make := by
    rw [lookupLabels_smap, hnone]
  simp [objectsNamespaceMatchesProvidedSelector, hmeta, hkind, assertStringMap, assertString,
    validateThenMatch, hvalid, hl]

/-- Instance of amended C14: the document with top-level labels env=prod is
matched against the empty label set. -/
theorem namespace_labels_are_read_from_metadata_only_witness :
    (objectsNamespaceMatchesProvidedSelector samplePrimitives
        [("kind", Value.str "Namespace"), ("labels", Value.smap [("env", Value.str "prod")]),
          ("metadata", Value.smap [("name", Value.str "shop")])]
        "env=prod" emptyCache).result
      = samplePrimitives.MatchLabelSelector "env=prod" StringMap.make :=
  namespace_labels_are_read_from_metadata_only samplePrimitives
    [("kind", Value.str "Namespace"), ("labels", Value.smap [("env", Value.str "prod")]),
      ("metadata", Value.smap [("name", Value.str "shop")])]
    [("name", Value.str "shop")] "env=prod" emptyCache rfl rfl rfl (by decide)

/-- C18: for a document with mapping metadata and a string kind other than
"Namespace" whose `metadata.namespace` is present but does not hold a string,
the resolver returns `(false, nil)` and calls no collaborator: the cache is not
consulted and the selector is not validated. -/
theorem non_string_namespace_is_treated_as_absent (graffiti : SelectorPrimitives)
    (obj meta : List (String × Value)) (kind selector : String) (nsc : namespaceCache)
    (x : Value)
    (hmeta : index obj "metadata" = Value.smap meta)
    (hkind : index obj "kind" = Value.str kind)
    (hother : kind ≠ "Namespace")
    (hns : meta.lookup "namespace" = some x)
    (hnostr : ∀ s, x ≠ Value.str s) :
    objectsNamespaceMatchesProvidedSelector graffiti obj selector nsc
      = ⟨(false, none), []⟩ := by
  have hidx : index meta "namespace" = x := by simp [index, hns]
  have hname : assertString x = ("", false) := by
    cases x with
    | str s => exact absurd rfl (hnostr s)
    | _ => rfl
  have hlen : len "" = 0 := (len_eq_zero_iff "").2 rfl
  simp [objectsNamespaceMatchesProvidedSelector, hmeta, hkind, hidx, hname, assertStringMap,
    assertString, hlen, hother]

/-- Instance of C18: a Pod whose `metadata.namespace` is the number 42, with a
cache that knows the namespace "42" and a valid selector. -/
theorem non_string_namespace_is_treated_as_absent_witness :
    objectsNamespaceMatchesProvidedSelector samplePrimitives
        [("kind", Value.str "Pod"), ("metadata", Value.smap [("namespace", Value.num 42)])]
        "env=prod" (singleCache "42" (StringMap.alloc [("env", "prod")]))
      = ⟨(false, none), []⟩ :=
  non_string_namespace_is_treated_as_absent samplePrimitives
    [("kind", Value.str "Pod"), ("metadata", Value.smap [("namespace", Value.num 42)])]
    [("namespace", Value.num 42)] "Pod" "env=prod"
    (singleCache "42" (StringMap.alloc [("env", "prod")])) (Value.num 42)
    rfl rfl (by decide) rfl (fun _ h => Value.noConfusion h)

/-! ## Totality of label extraction -/

theorem kind_reflectValueOf (v : Value) : (reflectValueOf v).Kind ≠ Kind.Interface := by
  cases v <;> simp [reflectValueOf, RValue.Kind]

theorem getStringValueChecked_ofValue (fuel : Nat) (v : Value) :
    getStringValueChecked (fuel + 1) (RValue.ofValue v)
      = Except.ok (getStringValue (RValue.ofValue v)) := by
  rw [getStringValue_ofValue]
  cases v <;> simp [getStringValueChecked, RValue.Kind, RValue.String, assertString]

theorem getStringValueChecked_eq (fuel : Nat) (r : RValue) :
    getStringValueChecked (fuel + 2) r = Except.ok (getStringValue r) := by
  cases r with
  | ofValue v => exact getStringValueChecked_ofValue (fuel + 1) v
  | ofInterface v =>
    have h := getStringValueChecked_ofValue fuel v
    rw [getStringValue_eq] at h ⊢
    simpa [getStringValueChecked, RValue.Kind, RValue.InterfaceChecked, RValue.Interface,
      reflectValueOf] using h

theorem convertLoopChecked_eq (fuel : Nat) (es : List (RValue × RValue)) :
    ∀ acc : List (String × String),
      convertLoopChecked (fuel + 2) es (StringMap.alloc acc)
        = Except.ok (convertLoop es (StringMap.alloc acc)) := by
  induction es with
  | nil => intro acc; rfl
  | cons p rest ih =>
    intro acc
    obtain ⟨k, v⟩ := p
    simp only [convertLoopChecked, convertLoop, getStringValueChecked_eq]
    rcases getStringValue k with ⟨ks, _ | _⟩
    · exact ih acc
    · rcases getStringValue v with ⟨vs, _ | _⟩
      · exact ih acc
      · exact ih _

theorem convertToMapStringStringChecked_ofValue (limit fuel : Nat) (v : Value) :
    convertToMapStringStringChecked (limit + 2) (fuel + 1) (RValue.ofValue v)
      = Except.ok (convertToMapStringString (RValue.ofValue v)) := by
  rw [convertToMapStringString_ofValue]
  cases v <;>
    simp [convertToMapStringStringChecked, RValue.Kind, RValue.MapEntriesChecked,
      RValue.MapEntries, convertLoop, convertLoopChecked_eq, StringMap.make]

theorem convertToMapStringStringChecked_eq (limit fuel : Nat) (r : RValue) :
    convertToMapStringStringChecked (limit + 2) (fuel + 2) r
      = Except.ok (convertToMapStringString r) := by
  cases r with
  | ofValue v => exact convertToMapStringStringChecked_ofValue limit (fuel + 1) v
  | ofInterface v =>
    have h := convertToMapStringStringChecked_ofValue limit fuel v
    rw [convertToMapStringString_ofInterface, ← convertToMapStringString_ofValue]
    simpa [convertToMapStringStringChecked, RValue.Kind, RValue.InterfaceChecked,
      RValue.Interface, reflectValueOf] using h

theorem lookupLoopChecked_eq (fuel : Nat) (es : List (RValue × RValue)) :
    lookupLoopChecked (fuel + 2) es = Except.ok (lookupLoop es) := by
  induction es with
  | nil => rfl
  | cons p rest ih =>
    obtain ⟨k, v⟩ := p
    simp only [lookupLoopChecked, lookupLoop, getStringValueChecked_eq,
      convertToMapStringStringChecked_eq]
    by_cases h : (getStringValue k).1 = "labels"
    · simp [h]
    · simp [h, ih]

/-- C16: label extraction is total and free of run-time failures.  For every
reflected or dynamic value, the runs of `getStringValue`,
`convertToMapStringString` and `lookupLabels` in which the `reflect` calls and
the map assignment can panic and the nesting of calls is bounded end with a
value as soon as two nested calls are allowed, the call itself and one further
call; that value is the one the functions compute.  One call does not suffice
for a value of kind `Interface`, and the value unwrapped from an interface is
never of kind `Interface`. -/
theorem label_extraction_is_total_and_panic_free :
    (∀ (fuel : Nat) (r : RValue),
        getStringValueChecked (fuel + 2) r = Except.ok (getStringValue r))
      ∧ (∀ (limit fuel : Nat) (r : RValue),
        convertToMapStringStringChecked (limit + 2) (fuel + 2) r
          = Except.ok (convertToMapStringString r))
      ∧ (∀ (fuel : Nat) (obj : Value),
        lookupLabelsChecked (fuel + 2) obj = Except.ok (lookupLabels obj))
      ∧ (∀ v : Value, (reflectValueOf v).Kind ≠ Kind.Interface)
      ∧ (∀ v : Value,
        getStringValueChecked 1 (RValue.ofInterface v) = Except.error Failure.outOfFuel
          ∧ convertToMapStringStringChecked 2 1 (RValue.ofInterface v)
            = Except.error Failure.outOfFuel) := by
  refine ⟨getStringValueChecked_eq, convertToMapStringStringChecked_eq, ?_,
    kind_reflectValueOf, ?_⟩
  · intro fuel obj
    simp only [lookupLabelsChecked, lookupLabels, RValue.MapEntriesChecked,
      lookupLoopChecked_eq]
    by_cases h : (reflectValueOf obj).Kind = Kind.Map
    · simp only [h, if_true]
      cases lookupLoop (reflectValueOf obj).MapEntries <;> rfl
    · simp [h]
  · intro v
    constructor
    · simp [getStringValueChecked, RValue.Kind, RValue.InterfaceChecked]
    · simp [convertToMapStringStringChecked, RValue.Kind, RValue.InterfaceChecked]

/-! ## Independence of the enumeration order -/

theorem lookupLabels_of_labels_mem (m v : Value) (hwf : m.KeysNodup)
    (hmem : (Value.str "labels", v) ∈ m.pairs) :
    lookupLabels m = convertToMapStringString (RValue.ofInterface v) := by
  rw [lookupLabels_eq, find_labels_of_mem m.pairs v hwf hmem]

/-- C17: the extracted label set does not depend on the order in which the
maps enumerate their keys.  For two maps with unique keys that hold the same
entries in two orders, `lookupLabels` returns the same map; and when, besides,
their values under "labels" hold the same entries in two orders, the two
results are allocated maps with the same entries, each key once. -/
theorem lookupLabels_independent_of_enumeration_order (m m2 : Value) (hwf : m.KeysNodup) :
    (m.pairs.Perm m2.pairs → lookupLabels m = lookupLabels m2)
      ∧ (∀ (rest : List (Value × Value)) (v v2 : Value),
          m.pairs.Perm ((Value.str "labels", v) :: rest) →
          m2.pairs.Perm ((Value.str "labels", v2) :: rest) →
          v.KeysNodup → v.pairs.Perm v2.pairs →
          ∃ l l2, lookupLabels m = StringMap.alloc l ∧ lookupLabels m2 = StringMap.alloc l2
            ∧ l.Perm l2 ∧ (l.map Prod.fst).Nodup) := by
  constructor
  · intro hperm
    have hwf2 : m2.KeysNodup := (hperm.map Prod.fst).nodup_iff.1 hwf
    by_cases hex : ∃ v, (Value.str "labels", v) ∈ m.pairs
    · obtain ⟨v, hv⟩ := hex
      rw [lookupLabels_of_labels_mem m v hwf hv,
        lookupLabels_of_labels_mem m2 v hwf2 (hperm.mem_iff.1 hv)]
    · have hno : ∀ v, (Value.str "labels", v) ∉ m.pairs := fun v hv => hex ⟨v, hv⟩
      have hno2 : ∀ v, (Value.str "labels", v) ∉ m2.pairs :=
        fun v hv => hno v (hperm.mem_iff.2 hv)
      rw [lookupLabels_eq, lookupLabels_eq, find_labels_none _ hno, find_labels_none _ hno2]
  · intro rest v v2 hm hm2 hv hvperm
    have hmem : (Value.str "labels", v) ∈ m.pairs :=
      hm.mem_iff.2 (List.mem_cons_self _ _)
    have hmem2 : (Value.str "labels", v2) ∈ m2.pairs :=
      hm2.mem_iff.2 (List.mem_cons_self _ _)
    have hkeys : (((Value.str "labels", v) :: rest).map Prod.fst).Nodup :=
      (hm.map Prod.fst).nodup_iff.1 hwf
    have hwf2 : m2.KeysNodup := by
      have h2 : (((Value.str "labels", v2) :: rest).map Prod.fst).Nodup := by
        simpa using hkeys
      exact (hm2.map Prod.fst).nodup_iff.2 h2
    have hv2 : v2.KeysNodup := (hvperm.map Prod.fst).nodup_iff.1 hv
    refine ⟨v.pairs.filterMap stringPair, v2.pairs.filterMap stringPair, ?_, ?_,
      hvperm.filterMap stringPair, nodup_keys_filterMap_stringPair _ hv⟩
    · rw [lookupLabels_of_labels_mem m v hwf hmem, convertToMapStringString_eq v hv]
    · rw [lookupLabels_of_labels_mem m2 v2 hwf2 hmem2, convertToMapStringString_eq v2 hv2]

/-- Instance of C17: a map with a name and the labels a=1, b=2, against the
same map with both its own keys and the keys of its labels in the other
order. -/
theorem lookupLabels_independent_of_enumeration_order_witness :
    ∃ l l2,
      lookupLabels (Value.smap [("name", Value.str "shop"),
          ("labels", Value.smap [("a", Value.str "1"), ("b", Value.str "2")])])
        = StringMap.alloc l
      ∧ lookupLabels (Value.smap [("labels", Value.smap [("b", Value.str "2"),
            ("a", Value.str "1")]), ("name", Value.str "shop")])
        = StringMap.alloc l2
      ∧ l.Perm l2 ∧ (l.map Prod.fst).Nodup :=
  (lookupLabels_independent_of_enumeration_order
    (Value.smap [("name", Value.str "shop"),
      ("labels", Value.smap [("a", Value.str "1"), ("b", Value.str "2")])])
    (Value.smap [("labels", Value.smap [("b", Value.str "2"), ("a", Value.str "1")]),
      ("name", Value.str "shop")])
    (by simp [Value.KeysNodup, Value.pairs])).2
    [(Value.str "name", Value.str "shop")]
    (Value.smap [("a", Value.str "1"), ("b", Value.str "2")])
    (Value.smap [("b", Value.str "2"), ("a", Value.str "1")])
    (List.Perm.swap _ _ _) (List.Perm.refl _)
    (by simp [Value.KeysNodup, Value.pairs]) (List.Perm.swap _ _ _)

/-! ## Facts about percent-encoding -/

theorem shouldEscape_percent : shouldEscape 37 = true := by decide

theorem upperhex_injective :
    ∀ n m : Fin 16, upperhex.getD n.val 0 = upperhex.getD m.val 0 → n = m := by decide

theorem upperhex_digit :
    ∀ n : Fin 16, isUpperHex (upperhex.getD n.val 0) = true
      ∧ upperhex.getD n.val 0 ≠ (37 : Byte) := by decide

set_option maxRecDepth 100000 in
theorem kept_byte_is_safe :
    ∀ c : Byte, shouldEscape c = false →
      isPathSegmentChar c = true ∧ c.val ≠ ' '.toNat ∧ c.val ≠ '/'.toNat
        ∧ c.val ≠ '?'.toNat ∧ c ≠ 37 := by decide

set_option maxRecDepth 100000 in
theorem unreserved_byte_is_kept :
    ∀ c : Byte, isUnreserved c = true → shouldEscape c = false := by decide

theorem upperhex_safe :
    ∀ n : Fin 16, isPathSegmentChar (upperhex.getD n.val 0) = true
      ∧ (upperhex.getD n.val 0).val ≠ ' '.toNat ∧ (upperhex.getD n.val 0).val ≠ '/'.toNat
      ∧ (upperhex.getD n.val 0).val ≠ '?'.toNat := by decide

theorem pathPrefix_eq : pathPrefix = [47, 103, 114, 97, 102, 102, 105, 116, 105, 47] := by
  decide

theorem byte_eq_of_digits (a b : Byte) (hi : a.val / 16 = b.val / 16)
    (lo : a.val % 16 = b.val % 16) : a = b := by
  apply Fin.ext
  omega

theorem escape_cons (c : Byte) (rest : GoString) :
    escape (c :: rest) = escapeByte c ++ escape rest := rfl

theorem escape_injective : ∀ s t : GoString, escape s = escape t → s = t := by
  intro s
  induction s with
  | nil =>
    intro t h
    cases t with
    | nil => rfl
    | cons b t =>
      have h0 : escape ([] : GoString) = [] := rfl
      rw [escape_cons, h0] at h
      cases hb : shouldEscape b <;> simp [escapeByte, hb] at h
  | cons a s ih =>
    intro t h
    cases t with
    | nil =>
      have h0 : escape ([] : GoString) = [] := rfl
      rw [escape_cons, h0] at h
      cases ha : shouldEscape a <;> simp [escapeByte, ha] at h
    | cons b t =>
      rw [escape_cons, escape_cons] at h
      have ha16 : a.val / 16 < 16 := by omega
      have hb16 : b.val / 16 < 16 := by omega
      have ha15 : a.val % 16 < 16 := by omega
      have hb15 : b.val % 16 < 16 := by omega
      cases ha : shouldEscape a <;> cases hb : shouldEscape b <;>
        simp only [escapeByte, ha, hb, Bool.false_eq_true, if_true, if_false, List.cons_append,
          List.nil_append, List.cons.injEq] at h
      · rw [h.1, ih t h.2]
      · have hp : shouldEscape a = true := h.1 ▸ shouldEscape_percent
        rw [ha] at hp
        exact absurd hp (by decide)
      · have hp : shouldEscape b = true := h.1 ▸ shouldEscape_percent
        rw [hb] at hp
        exact absurd hp (by decide)
      · obtain ⟨_, hhi, hlo, hrest⟩ := h
        have e1 := upperhex_injective ⟨_, ha16⟩ ⟨_, hb16⟩ hhi
        have e2 := upperhex_injective ⟨_, ha15⟩ ⟨_, hb15⟩ hlo
        have hab : a = b := byte_eq_of_digits a b (Fin.mk.inj e1) (Fin.mk.inj e2)
        rw [hab, ih t hrest]

theorem mem_escape_safe (s : GoString) :
    ∀ c ∈ escape s, isPathSegmentChar c = true ∧ c.val ≠ ' '.toNat ∧ c.val ≠ '/'.toNat
      ∧ c.val ≠ '?'.toNat := by
  induction s with
  | nil => intro c hc; simp [escape] at hc
  | cons a s ih =>
    intro c hc
    rw [escape_cons, List.mem_append] at hc
    rcases hc with hc | hc
    · have ha16 : a.val / 16 < 16 := by omega
      have ha15 : a.val % 16 < 16 := by omega
      cases ha : shouldEscape a
      · simp only [escapeByte, ha, Bool.false_eq_true, if_false, List.mem_singleton] at hc
        subst hc
        have h := kept_byte_is_safe c ha
        exact ⟨h.1, h.2.1, h.2.2.1, h.2.2.2.1⟩
      · simp only [escapeByte, ha, if_true, List.mem_cons, List.mem_singleton,
          List.not_mem_nil, or_false] at hc
        rcases hc with hc | hc | hc
        · subst hc
          decide
        · subst hc
          exact upperhex_safe ⟨_, ha16⟩
        · subst hc
          exact upperhex_safe ⟨_, ha15⟩
    · exact ih c hc

theorem percent_in_escape (s : GoString) :
    ∀ pre post : GoString, escape s = pre ++ 37 :: post →
      ∃ h1 h2 rest, post = h1 :: h2 :: rest ∧ isUpperHex h1 = true ∧ isUpperHex h2 = true := by
  induction s with
  | nil =>
    intro pre post h
    have h0 : escape ([] : GoString) = [] := rfl
    rw [h0] at h
    cases pre <;> simp at h
  | cons a s ih =>
    intro pre post h
    have ha16 : a.val / 16 < 16 := by omega
    have ha15 : a.val % 16 < 16 := by omega
    rw [escape_cons] at h
    cases ha : shouldEscape a
    · simp only [escapeByte, ha, Bool.false_eq_true, if_false, List.cons_append,
        List.nil_append] at h
      cases pre with
      | nil =>
        simp only [List.nil_append, List.cons.injEq] at h
        exact absurd h.1 (kept_byte_is_safe a ha).2.2.2.2
      | cons p pre2 =>
        simp only [List.cons_append, List.cons.injEq] at h
        exact ih pre2 post h.2
    · simp only [escapeByte, ha, if_true, List.cons_append, List.nil_append] at h
      cases pre with
      | nil =>
        simp only [List.nil_append, List.cons.injEq, true_and] at h
        exact ⟨_, _, _, h.symm, (upperhex_digit ⟨_, ha16⟩).1, (upperhex_digit ⟨_, ha15⟩).1⟩
      | cons p pre2 =>
        simp only [List.cons_append, List.cons.injEq] at h
        cases pre2 with
        | nil =>
          simp only [List.nil_append, List.cons.injEq] at h
          exact absurd h.2.1 (upperhex_digit ⟨_, ha16⟩).2
        | cons p2 pre3 =>
          simp only [List.cons_append, List.cons.injEq] at h
          cases pre3 with
          | nil =>
            simp only [List.nil_append, List.cons.injEq] at h
            exact absurd h.2.2.1 (upperhex_digit ⟨_, ha15⟩).2
          | cons p3 pre4 =>
            simp only [List.cons_append, List.cons.injEq] at h
            exact ih pre4 post h.2.2.2

theorem escape_unreserved (s : GoString) (h : ∀ c ∈ s, isUnreserved c = true) :
    escape s = s := by
  induction s with
  | nil => rfl
  | cons a s ih =>
    have ha : shouldEscape a = false :=
      unreserved_byte_is_kept a (h a (List.mem_cons_self _ _))
    rw [escape_cons, ih fun c hc => h c (List.mem_cons_of_mem _ hc)]
    simp [escapeByte, ha]

theorem lookup_assignRule_self (table : List (GoString × Rule)) (path : GoString)
    (rule : Rule) : (assignRule table path rule).lookup path = some rule := by
  induction table with
  | nil => simp [assignRule, List.lookup_cons]
  | cons p rest ih =>
    obtain ⟨q, r⟩ := p
    by_cases h : q = path
    · simp [assignRule, h, List.lookup_cons]
    · have hb : (path == q) = false := by
        simp only [beq_eq_false_iff_ne, ne_eq]
        exact fun e => h e.symm
      simp [assignRule, h, List.lookup_cons, hb, ih]

theorem pathFromName_ne_nil (name : GoString) : pathFromName name ≠ [] := by
  simp [pathFromName, pathPrefix_eq]

/-! ## Properties of the webhook paths and of rule registration -/

/-- C11: `pathFromName` is injective: two distinct rule names get distinct
paths; the names "a b", "a%20b" and "a%2520b" get the paths "/graffiti/a%20b",
"/graffiti/a%2520b" and "/graffiti/a%252520b". -/
theorem pathFromName_injective :
    (∀ a b : GoString, a ≠ b → pathFromName a ≠ pathFromName b)
      ∧ pathFromName (utf8 "a b") = utf8 "/graffiti/a%20b"
      ∧ pathFromName (utf8 "a%20b") = utf8 "/graffiti/a%2520b"
      ∧ pathFromName (utf8 "a%2520b") = utf8 "/graffiti/a%252520b" := by
  refine ⟨?_, by decide, by decide, by decide⟩
  intro a b hne heq
  exact hne (escape_injective a b (List.append_cancel_left heq))

/-- Instance of C11: the names "a b" and "a%20b" differ and so do their
paths. -/
theorem pathFromName_injective_witness :
    utf8 "a b" ≠ utf8 "a%20b" ∧ pathFromName (utf8 "a b") ≠ pathFromName (utf8 "a%20b") :=
  ⟨by decide, pathFromName_injective.1 (utf8 "a b") (utf8 "a%20b") (by decide)⟩

/-- C12: `pathFromName name` is the prefix "/graffiti/" followed by the
percent-encoding of the name as one URL path segment.  Every byte of the
encoded part is a character allowed in a path segment and none is a space, a
slash or a question mark; every percent sign in it is followed by two
upper-case hexadecimal digits; a name of unreserved characters only is kept
unchanged; and the name "my rule" gives "/graffiti/my%20rule". -/
theorem pathFromName_percent_encodes_the_name (name : GoString) :
    pathFromName name = utf8 "/graffiti/" ++ PathEscape name
      ∧ (∀ c ∈ PathEscape name, isPathSegmentChar c = true ∧ c.val ≠ ' '.toNat
          ∧ c.val ≠ '/'.toNat ∧ c.val ≠ '?'.toNat)
      ∧ (∀ pre post : GoString, PathEscape name = pre ++ 37 :: post →
          ∃ h1 h2 rest, post = h1 :: h2 :: rest ∧ isUpperHex h1 = true ∧ isUpperHex h2 = true)
      ∧ ((∀ c ∈ name, isUnreserved c = true) → PathEscape name = name)
      ∧ pathFromName (utf8 "my rule") = utf8 "/graffiti/my%20rule" :=
  ⟨rfl, mem_escape_safe name, percent_in_escape name, escape_unreserved name, by decide⟩

set_option maxRecDepth 100000 in
/-- Instance of C12: the name "v1.x_y~-z" has unreserved characters only
and is appended unchanged. -/
theorem pathFromName_percent_encodes_the_name_witness :
    PathEscape (utf8 "v1.x_y~-z") = utf8 "v1.x_y~-z"
      ∧ pathFromName (utf8 "v1.x_y~-z") = utf8 "/graffiti/v1.x_y~-z" :=
  have h := (pathFromName_percent_encodes_the_name (utf8 "v1.x_y~-z")).2.2.2.1
    (by decide)
  ⟨h, by decide⟩

/-- C15 fails as stated: on a new server, after the rule "env-prod" with the
selector "env=prod" is registered, registering another rule of the same name
does not complete: `mux.Handle` panics on the path already registered, and the
rule recorded for the path is still the first one. -/
theorem second_registration_of_a_name_panics :
    ((NewServer "example.com" "kube-system" "graffiti" [] 8443).AddGraffitiRule
        ⟨utf8 "env-prod", "env=prod"⟩).failure = none
    ∧ (((NewServer "example.com" "kube-system" "graffiti" [] 8443).AddGraffitiRule
          ⟨utf8 "env-prod", "env=prod"⟩).server.AddGraffitiRule
          ⟨utf8 "env-prod", "env=staging"⟩).failure
      = some (Failure.panicked "http: multiple registrations for /graffiti/env-prod")
    ∧ (((NewServer "example.com" "kube-system" "graffiti" [] 8443).AddGraffitiRule
          ⟨utf8 "env-prod", "env=prod"⟩).server.AddGraffitiRule
          ⟨utf8 "env-prod", "env=staging"⟩).server.handler.ruleFor
        (pathFromName (utf8 "env-prod"))
      = some ⟨utf8 "env-prod", "env=prod"⟩ := by
  decide

/-- C15, amended: registering a rule whose path is already registered fails.
For every server state left by a call `AddGraffitiRule(r1)` that completed and
every rule r2 of the same name, `AddGraffitiRule(r2)` ends in the panic of
`mux.Handle` for multiple registrations before the rule is recorded; the server
is unchanged: the path of the name is routed to the shared handler and r1 is
the rule recorded for it. -/
theorem registration_of_a_registered_name_panics (s : Server) (r1 r2 : Rule)
    (hdone : (s.AddGraffitiRule r1).failure = none)
    (hname : r2.Name = r1.Name) :
    (s.AddGraffitiRule r1).server.AddGraffitiRule r2
        = ⟨(s.AddGraffitiRule r1).server,
            some (Failure.panicked
              ("http: multiple registrations for " ++ text (pathFromName r1.Name)))⟩
      ∧ pathFromName r1.Name ∈ (s.AddGraffitiRule r1).server.mux.patterns
      ∧ (s.AddGraffitiRule r1).server.handler.ruleFor (pathFromName r1.Name) = some r1 := by
  have hne := pathFromName_ne_nil r1.Name
  by_cases hin : pathFromName r1.Name ∈ s.mux.patterns
  · simp [Server.AddGraffitiRule, ServeMux.Handle, hne, hin] at hdone
  · have hs : s.AddGraffitiRule r1
        = ⟨{ s with mux := ⟨s.mux.patterns ++ [pathFromName r1.Name]⟩,
                    handler := s.handler.addRule (pathFromName r1.Name) r1 }, none⟩ := by
      simp [Server.AddGraffitiRule, ServeMux.Handle, hne, hin]
    rw [hs]
    refine ⟨?_, ?_, ?_⟩
    · simp [Server.AddGraffitiRule, ServeMux.Handle, hname, hne]
    · simp
    · simp [graffitiHandler.ruleFor, graffitiHandler.addRule, lookup_assignRule_self]

/-- Instance of amended C15: the rules "env-prod" with the selectors "env=prod"
and "env=staging" on a new server. -/
theorem registration_of_a_registered_name_panics_witness :
    ((NewServer "example.com" "kube-system" "graffiti" [] 8443).AddGraffitiRule
          ⟨utf8 "env-prod", "env=prod"⟩).server.AddGraffitiRule
          ⟨utf8 "env-prod", "env=staging"⟩
      = ⟨((NewServer "example.com" "kube-system" "graffiti" [] 8443).AddGraffitiRule
            ⟨utf8 "env-prod", "env=prod"⟩).server,
          some (Failure.panicked
            ("http: multiple registrations for " ++ text (pathFromName (utf8 "env-prod"))))⟩ :=
  (registration_of_a_registered_name_panics
    (NewServer "example.com" "kube-system" "graffiti" [] 8443)
    ⟨utf8 "env-prod", "env=prod"⟩ ⟨utf8 "env-prod", "env=staging"⟩ (by decide) rfl).1

end KubeGraffiti
